import Mathlib

/-!
# Verification of the knowledgeTrace-server domain logic

Shallow embedding of the Express/MongoDB controllers of the
knowledgeTrace-server repository (project lifecycle, supervision-request
workflow, access policy, comment threads) together with proofs of the
specification claims about them.

Conventions of the embedding:
* Mongo collections are Lean lists of documents; `findOne` is `List.find?`,
  `updateOne` updates the first matching document, `insertOne` appends.
* Document ids (`ObjectId`) are strings; the driver constructor
  `new ObjectId(s)` is the identity on the hex string and
  `ObjectId.isValid` is the 24-hex-character check.
* JS strings are Lean `String`s; absent string fields are modelled as `""`
  (the code only ever reads them through falsiness checks or `|| ''`).
* Timestamps are natural numbers passed in as a `now` parameter.
-/

/-- `updateOne`-style update: apply `f` to the first element satisfying `p`,
leave everything else unchanged (MongoDB `updateOne` semantics). -/
def updateFirst (p : α → Bool) (f : α → α) : List α → List α
  | [] => []
  | x :: xs => if p x then f x :: xs else x :: updateFirst p f xs

/-- `deleteOne`-style removal: drop the first element satisfying `p`. -/
def deleteFirst (p : α → Bool) : List α → List α
  | [] => []
  | x :: xs => if p x then xs else x :: deleteFirst p xs

namespace HtmlStrip

/-- JS `\s` whitespace class restricted to the characters that can actually
appear here (space, tab, newlines, vertical tab, form feed, NBSP, BOM). -/
def jsIsWhitespace (c : Char) : Bool :=
  c = ' ' || c = '\t' || c = '\n' || c = '\r' ||
  c = '\x0b' || c = '\x0c' || c = ' '

/-- Worker for `stripTags`, structurally recursive on a fuel argument so that
it evaluates inside the kernel; every step consumes at least one character, so
fuel `cs.length` always suffices. -/
def stripTagsGo : Nat → List Char → List Char
  | 0, cs => cs
  | _ + 1, [] => []
  | fuel + 1, c :: rest =>
    if c = '<' && rest.any (· = '>') then
      stripTagsGo fuel ((rest.dropWhile (· ≠ '>')).drop 1)
    else
      c :: stripTagsGo fuel rest

/-- The global replacement `html.replace(/<[^>]*>/g, '')` of
`src/utils/htmlStrip.js`: every maximal span from a `<` up to the next `>` is
deleted; a `<` with no later `>` never matches and is kept verbatim. -/
def stripTags (cs : List Char) : List Char :=
  stripTagsGo cs.length cs

/-- Global, left-to-right, non-overlapping replacement of the literal pattern
`pat` by `rep` (the semantics of `text.replace(new RegExp(entity, 'g'), char)`
for a metacharacter-free pattern). -/
def replaceAllGo (pat rep : List Char) : Nat → List Char → List Char
  | 0, cs => cs
  | _ + 1, [] => []
  | fuel + 1, c :: rest =>
    if !pat.isEmpty && pat.isPrefixOf (c :: rest) then
      rep ++ replaceAllGo pat rep fuel ((c :: rest).drop pat.length)
    else
      c :: replaceAllGo pat rep fuel rest

def replaceAll (pat rep : List Char) (cs : List Char) : List Char :=
  replaceAllGo pat rep cs.length cs

/-- Sequential decoding of the seven entity patterns, in the object order of
`src/utils/htmlStrip.js` lines 20-32. -/
def decodeEntities (cs : List Char) : List Char :=
  let cs := replaceAll "&nbsp;".toList [' '] cs
  let cs := replaceAll "&lt;".toList ['<'] cs
  let cs := replaceAll "&gt;".toList ['>'] cs
  let cs := replaceAll "&amp;".toList ['&'] cs
  let cs := replaceAll "&quot;".toList ['\"'] cs
  let cs := replaceAll "&#39;".toList ['\x27'] cs
  replaceAll "&apos;".toList ['\x27'] cs

def collapseWsGo : Nat → List Char → List Char
  | 0, cs => cs
  | _ + 1, [] => []
  | fuel + 1, c :: rest =>
    if jsIsWhitespace c then
      ' ' :: collapseWsGo fuel (rest.dropWhile jsIsWhitespace)
    else
      c :: collapseWsGo fuel rest

/-- `text.replace(/\s+/g, ' ')`: each maximal whitespace run becomes one
space. -/
def collapseWs (cs : List Char) : List Char :=
  collapseWsGo cs.length cs

/-- `.trim()` on the collapsed text. -/
def jsTrim (cs : List Char) : List Char :=
  ((cs.dropWhile jsIsWhitespace).reverse.dropWhile jsIsWhitespace).reverse

/-- `stripHtml` of `src/utils/htmlStrip.js`: strip tags, decode the common
entities, collapse whitespace runs to single spaces and trim. -/
def stripHtml (html : String) : String :=
  String.mk (jsTrim (collapseWs (decodeEntities (stripTags html.toList))))

/-- `getPlainTextLength` of `src/utils/htmlStrip.js`. -/
def getPlainTextLength (html : String) : Nat :=
  (stripHtml html).length

end HtmlStrip

/-! ## Data model

Document shapes used by the controllers. JS string fields that may be absent
are modelled as `""` (the code reads them only through falsiness checks or
`|| ''`); optional reference fields that the code compares against `null` are
`Option String`. -/

/-- JS `a || b` on strings: `""` is falsy. -/
def jsOr (a b : String) : String := if a == "" then b else a

def isHexDigit (c : Char) : Bool :=
  c.isDigit || ('a' ≤ c && c ≤ 'f') || ('A' ≤ c && c ≤ 'F')

/-- The Mongo driver `ObjectId.isValid` on strings: exactly 24 hex
characters. -/
def isValidObjectId (s : String) : Bool :=
  s.length == 24 && s.toList.all isHexDigit

/-- ASCII lowercasing, the effect of the `$options: 'i'` regex flag. -/
def jsToLower (c : Char) : Char :=
  if 'A' ≤ c && c ≤ 'Z' then Char.ofNat (c.toNat + 32) else c

/-- Contiguous-subsequence test used to give `$regex` its literal-pattern
semantics. -/
def containsSeq (pat : List Char) : List Char → Bool
  | [] => pat.isEmpty
  | c :: rest => pat.isPrefixOf (c :: rest) || containsSeq pat rest

/-- Case-insensitive substring containment: the semantics of a MongoDB
`{ $regex: pat, $options: 'i' }` filter once every regex metacharacter in
`pat` has been escaped (as the controller does). -/
def ciContains (hay pat : String) : Bool :=
  containsSeq (pat.toList.map jsToLower) (hay.toList.map jsToLower)

structure User where
  uid : String
  email : String := ""
  name : String := ""
  displayName : String := ""
  department : String := ""
  photoURL : String := ""
  role : String := ""
  isAdmin : Bool := false
  supervisedProjects : List String := []
  updatedAt : Nat := 0
deriving Repr, DecidableEq

structure Reply where
  _id : String
  userId : String
  userName : String := ""
  userPhotoURL : String := ""
  content : String := ""
  createdAt : Nat := 0
  updatedAt : Nat := 0
deriving Repr, DecidableEq

structure Comment where
  _id : String
  userId : String
  userName : String := ""
  userPhotoURL : String := ""
  content : String := ""
  createdAt : Nat := 0
  updatedAt : Nat := 0
  replies : List Reply := []
deriving Repr, DecidableEq

structure Project where
  _id : String
  title : String := ""
  abstract : String := ""
  techStack : List String := []
  tags : List String := []
  author : String := ""
  authorId : String := ""
  supervisor : String := ""
  supervisorId : String := ""
  supervisorDepartment : String := ""
  year : Int := 0
  githubLink : String := ""
  pdfUrl : String := ""
  status : String := "pending"
  likes : List String := []
  likeCount : Int := 0
  comments : List Comment := []
  commentCount : Int := 0
  createdAt : Nat := 0
  updatedAt : Nat := 0
deriving Repr, DecidableEq

structure SupervisorRequest where
  _id : String
  studentId : String
  supervisorId : String
  projectId : Option String := none
  message : String := ""
  status : String := "pending"
  supervisorResponse : String := ""
  createdAt : Nat := 0
  respondedAt : Option Nat := none
deriving Repr, DecidableEq

structure Notification where
  userId : String
  type : String
  relatedUserId : Option String := none
  relatedUserName : String := ""
  relatedUserPhotoURL : String := ""
  projectId : Option String := none
  projectTitle : String := ""
  commentId : Option String := none
  message : String := ""
  relatedLink : String := ""
  read : Bool := false
  createdAt : Nat := 0
deriving Repr, DecidableEq

/-- The document store: one list per collection. -/
structure DB where
  users : List User := []
  projects : List Project := []
  requests : List SupervisorRequest := []
  notifications : List Notification := []
deriving Repr, DecidableEq

def findUser (db : DB) (uid : String) : Option User :=
  db.users.find? (fun u => u.uid == uid)

/-- `findOne({ _id })`; the controllers branch on `ObjectId.isValid` but both
branches look the document up by the same id value. -/
def findProject (db : DB) (id : String) : Option Project :=
  if isValidObjectId id then db.projects.find? (fun p => p._id == id)
  else db.projects.find? (fun p => p._id == id)

def findRequest (db : DB) (id : String) : Option SupervisorRequest :=
  db.requests.find? (fun r => r._id == id)

namespace ProjectController

/-! ### `getAllProjects` (src/controllers/projectController.js lines 17-136) -/

/-- The (already Joi-validated) query parameters of `GET /projects` that the
controller reads. `year` is the result of `parseInt(req.query.year)`; `none`
covers an absent or non-numeric parameter. -/
structure ProjectQuery where
  techStack : Option String := none
  author : Option String := none
  year : Option Int := none
  supervisor : Option String := none
  keywords : Option String := none
deriving Repr, DecidableEq

/-- JS `substring(0, n)` truncation. -/
def truncate (n : Nat) (s : String) : String := String.mk (s.toList.take n)

def isAdminUser (db : DB) (uid : String) : Bool :=
  match findUser db uid with
  | some u => u.isAdmin
  | none => false

/-- The non-status part of the Mongo query assembled in lines 52-111: the
regex filters on `techStack`/`author`/`supervisor` (case-insensitive,
metacharacters escaped, parameter truncated to 100 chars, skipped when the
parameter is empty), the range-checked `year` equality, and the keyword
`$or` over title/abstract/tags (parameter truncated to 200 chars). All of
these are conjoined with the status clause in the final query object. -/
def matchesOtherFilters (q : ProjectQuery) (currentYear : Int) (p : Project) : Bool :=
  (match q.techStack with
   | some s => s == "" || p.techStack.any (fun t => ciContains t (truncate 100 s))
   | none => true) &&
  (match q.author with
   | some s => s == "" || ciContains p.author (truncate 100 s)
   | none => true) &&
  (match q.year with
   | some y => if 2000 ≤ y && y ≤ currentYear + 1 then p.year == y else true
   | none => true) &&
  (match q.supervisor with
   | some s => s == "" || ciContains p.supervisor (truncate 100 s)
   | none => true) &&
  (match q.keywords with
   | some s =>
      s == "" ||
      (ciContains p.title (truncate 200 s) ||
       ciContains p.abstract (truncate 200 s) ||
       p.tags.any (fun t => ciContains t (truncate 200 s)))
   | none => true)

/-- Insertion step of the `.sort({ createdAt: -1 })` cursor modifier. -/
def insertByCreatedAtDesc (x : Project) : List Project → List Project
  | [] => [x]
  | y :: ys =>
    if y.createdAt ≤ x.createdAt then x :: y :: ys
    else y :: insertByCreatedAtDesc x ys

/-- `.sort({ createdAt: -1 })`: newest first. -/
def sortByCreatedAtDesc : List Project → List Project
  | [] => []
  | x :: xs => insertByCreatedAtDesc x (sortByCreatedAtDesc xs)

/-- `getAllProjects`: admin status is re-read from the users collection; the
status clause depends on authentication (lines 34-50); all remaining filters
are conjoined (lines 52-111, where `query.$and`/`query.$or` assembly always
denotes the conjunction of the status clause with the field filters); the
result is sorted newest-first (line 114). -/
def getAllProjects (db : DB) (callerUid : Option String) (q : ProjectQuery)
    (currentYear : Int) : List Project :=
  -- `req.user && req.user.uid`: an empty uid is falsy in JS
  let authedUid : Option String :=
    match callerUid with
    | some uid => if uid == "" then none else some uid
    | none => none
  let isAdmin : Bool :=
    match authedUid with
    | some uid => isAdminUser db uid
    | none => false
  let statusPred : Project → Bool :=
    if isAdmin then fun _ => true
    else
      match authedUid with
      | some uid => fun p =>
          p.status == "approved" || (p.status == "pending" && p.authorId == uid)
      | none => fun p => p.status == "approved"
  sortByCreatedAtDesc
    (db.projects.filter (fun p => statusPred p && matchesOtherFilters q currentYear p))

/-! ### `getProjectById` (src/controllers/projectController.js lines 141-176) -/

inductive GetErr where
  | notFound      -- 404 PROJECT_NOT_FOUND
  | accessDenied  -- 403 ACCESS_DENIED
deriving Repr, DecidableEq

/-- `getProjectById`: 404 when missing, 403 only for an unauthenticated
caller on a non-approved project, otherwise the project is returned. -/
def getProjectById (db : DB) (caller : Option String) (id : String) :
    Except GetErr Project :=
  match findProject db id with
  | none => .error .notFound
  | some project =>
    -- `if (!req.user && project.status !== 'approved')`
    if caller.isNone && project.status != "approved" then .error .accessDenied
    else .ok project

end ProjectController


/-- JS `.trim()` on a string value. -/
def jsTrimString (s : String) : String := String.mk (HtmlStrip.jsTrim s.toList)

/-- JS truthiness normalisation for an optional string: `""` is falsy, so
`x || null` and `if (x)` treat it like an absent value. -/
def jsOptString : Option String → Option String
  | some s => if s == "" then none else some s
  | none => none

/-- JS `String.prototype.endsWith`. -/
def jsEndsWith (s suffix : String) : Bool :=
  List.isPrefixOf suffix.toList.reverse s.toList.reverse

namespace NotificationHelper

/-- The named-parameter object of `createNotification`
(src/unnamed notification helper, lines 23-34), with the JS defaults. -/
structure NotifParams where
  recipientId : String
  senderId : String
  senderName : String := "Someone"
  senderPhotoURL : String := ""
  type : String
  message : String
  relatedLink : String := ""
  projectId : Option String := none
  projectTitle : String := ""
  commentId : Option String := none
deriving Repr, DecidableEq

/-- `createNotification`: skip self-notifications (unless the sender is the
synthetic `system` identity), optionally resolve the sender name/photo from
the users collection, and append the notification document. Failures are
swallowed by the helper, so the embedding always succeeds. -/
def createNotification (db : DB) (now : Nat) (prm : NotifParams) : DB :=
  if prm.recipientId == prm.senderId && prm.senderId != "system" then db
  else
    let resolved :=
      if prm.senderId != "" && prm.senderId != "system" &&
          (prm.senderName == "" || prm.senderPhotoURL == "") then
        match findUser db prm.senderId with
        | some senderUser =>
            (jsOr (jsOr senderUser.name senderUser.displayName) prm.senderName,
             jsOr senderUser.photoURL prm.senderPhotoURL)
        | none => (prm.senderName, prm.senderPhotoURL)
      else (prm.senderName, prm.senderPhotoURL)
    { db with
      notifications := db.notifications ++ [{
        userId := prm.recipientId,
        type := prm.type,
        relatedUserId := if prm.senderId == "system" then none else some prm.senderId,
        relatedUserName := resolved.1,
        relatedUserPhotoURL := resolved.2,
        projectId := prm.projectId,
        projectTitle := prm.projectTitle,
        commentId := prm.commentId,
        message := prm.message,
        relatedLink := prm.relatedLink,
        read := false,
        createdAt := now }] }

/-- `notifyAdmins`: one notification per stored admin user. -/
def notifyAdmins (db : DB) (now : Nat) (senderId senderName type message relatedLink : String)
    (projectId : Option String) (projectTitle : String) : DB :=
  (db.users.filter (fun u => u.isAdmin)).foldl
    (fun acc admin => createNotification acc now
      { recipientId := admin.uid, senderId := senderId, senderName := senderName,
        type := type, message := message, relatedLink := relatedLink,
        projectId := projectId, projectTitle := projectTitle })
    db

/-- `createProjectSubmissionNotification`: notify admins, then send the
student a `system` confirmation. -/
def createProjectSubmissionNotification (db : DB) (now : Nat)
    (studentId studentName projectTitle projectId : String) : DB :=
  let db1 := notifyAdmins db now studentId studentName "project_submission"
    (studentName ++ " submitted a new project: \"" ++ projectTitle ++ "\"")
    "/admin" (some projectId) projectTitle
  createNotification db1 now
    { recipientId := studentId, senderId := "system", senderName := "System",
      type := "project_status",
      message := "Your project \"" ++ projectTitle ++
        "\" has been submitted and is pending admin approval.",
      relatedLink := "/my-work", projectId := some projectId,
      projectTitle := projectTitle }

/-- `createSupervisorResponseNotification`: the student-facing notification
sent after a supervisor responds to a request. -/
def createSupervisorResponseNotification (db : DB) (now : Nat)
    (studentId supervisorId supervisorName status : String)
    (projectTitle : Option String) (projectId : Option String) : DB :=
  let statusText := if status == "approved" then "accepted" else "declined"
  createNotification db now
    { recipientId := studentId, senderId := supervisorId,
      senderName := supervisorName, type := "supervisor_response",
      message := "Supervisor " ++ supervisorName ++ " " ++ statusText ++
        " your request" ++
        (match jsOptString projectTitle with
         | some t => " for \"" ++ t ++ "\""
         | none => "") ++ ".",
      relatedLink := (match projectId with
        | some pid => "/project/" ++ pid
        | none => "/dashboard"),
      projectId := projectId,
      projectTitle := jsOr ((jsOptString projectTitle).getD "") "Supervision Response" }

end NotificationHelper


namespace ProjectController

/-! ### `createProject` (src/controllers/projectController.js lines 210-403)

The multipart body after the Express form/Joi glue: `techStack`/`tags` are
the parsed arrays (the JSON/comma fallback parsing is transport glue),
`year` is the `parseInt` result, `githubHost` is the hostname that `new URL`
yields on the trimmed link (`none` when URL parsing throws), and `pdfUpload`
is the object-storage outcome for an attached file (`some none` models a
failed upload / thrown upload error). -/

structure CreateProjectBody where
  title : Option String := none
  abstract : Option String := none
  techStack : List String := []
  tags : List String := []
  author : Option String := none
  supervisorId : Option String := none
  supervisor : Option String := none
  year : Option Int := none
  githubLink : Option String := none
  githubHost : Option String := none
  pdfUpload : Option (Option String) := none
deriving Repr, DecidableEq

inductive CreateErr where
  | validationError    -- 400 VALIDATION_ERROR
  | uploadError        -- 500 UPLOAD_ERROR
  | invalidSupervisor  -- 400 INVALID_SUPERVISOR
  | dbError            -- 500 DB_WRITE_ERROR / DB_RETRIEVAL_ERROR
deriving Repr, DecidableEq

/-- `createProject`: guard sequence (title, abstract, stripped-length
bounds), PDF upload, field sanitisation, optional supervisor verification,
insert in `pending` status, then the submission notifications. -/
def createProject (db : DB) (callerUid callerName : String)
    (body : CreateProjectBody) (newId : String) (currentYear : Int)
    (now : Nat) : DB × Except CreateErr Project :=
  match jsOptString body.title with
  | none => (db, .error .validationError)
  | some title0 =>
  if jsTrimString title0 == "" then (db, .error .validationError)
  else if title0.length > 200 then (db, .error .validationError)
  else match jsOptString body.abstract with
  | none => (db, .error .validationError)
  | some abstract0 =>
  if jsTrimString abstract0 == "" then (db, .error .validationError)
  else
  let plainTextAbstract := HtmlStrip.stripHtml abstract0
  if plainTextAbstract.length < 100 then (db, .error .validationError)
  else if plainTextAbstract.length > 5000 then (db, .error .validationError)
  else
  let pdfRes : Except CreateErr String :=
    match body.pdfUpload with
    | none => .ok ""
    | some none => .error .uploadError
    | some (some url) => if url == "" then .error .uploadError else .ok url
  match pdfRes with
  | .error e => (db, .error e)
  | .ok pdfUrl =>
  let techStack := (body.techStack.take 20).map (truncate 50)
  let tags := (body.tags.take 10).map (truncate 50)
  let title := truncate 200 (jsTrimString title0)
  let abstract := truncate 5000 (jsTrimString abstract0)
  let author :=
    match jsOptString body.author with
    | some a => truncate 100 (jsTrimString a)
    | none => jsOr callerName "Anonymous"
  let supRes : Except CreateErr (String × String × String) :=
    match jsOptString body.supervisorId with
    | some sid0 =>
      let sid := jsTrimString sid0
      match db.users.find? (fun u => u.uid == sid && u.role == "supervisor") with
      | none => .error .invalidSupervisor
      | some supervisorUser =>
          .ok (supervisorUser.name, sid, jsOr supervisorUser.department "")
    | none =>
      match jsOptString body.supervisor with
      | some s => .ok (truncate 100 (jsTrimString s), "", "")
      | none => .ok ("", "", "")
  match supRes with
  | .error e => (db, .error e)
  | .ok (supervisor, supervisorId, supervisorDepartment) =>
  let validatedYear : Int :=
    match body.year with
    | some y => if 2000 ≤ y && y ≤ currentYear + 1 then y else currentYear
    | none => currentYear
  let ghRes : Except CreateErr String :=
    match jsOptString body.githubLink with
    | none => .ok ""
    | some g0 =>
      let githubUrl := jsTrimString g0
      if githubUrl == "" then .ok ""
      else match body.githubHost with
      | none => .error .validationError      -- `new URL` threw
      | some host =>
        if host == "github.com" || host == "www.github.com" then
          .ok (truncate 500 githubUrl)
        else .error .validationError
  match ghRes with
  | .error e => (db, .error e)
  | .ok githubLink =>
  let projectData : Project :=
    { _id := newId, title := title, abstract := abstract,
      techStack := techStack, author := author, authorId := callerUid,
      supervisor := supervisor, supervisorId := supervisorId,
      supervisorDepartment := supervisorDepartment, year := validatedYear,
      githubLink := githubLink, pdfUrl := pdfUrl, tags := tags,
      status := "pending", createdAt := now, updatedAt := now }
  let db1 := { db with projects := db.projects ++ [projectData] }
  match db1.projects.find? (fun p => p._id == newId) with
  | none => (db1, .error .dbError)
  | some project =>
    let db2 := NotificationHelper.createProjectSubmissionNotification db1 now
      callerUid (jsOr project.author (jsOr callerName "A student"))
      project.title project._id
    (db2, .ok project)

/-! ### `toggleLike` (src/controllers/projectController.js lines 602-661) -/

/-- The `$pull`/`$inc` or `$addToSet`/`$inc` update applied to the liked
project, chosen by the `hasLiked` membership test. -/
def toggleLikeUpdate (userId : String) (now : Nat) (hasLiked : Bool)
    (p : Project) : Project :=
  if hasLiked then
    { p with likes := p.likes.filter (fun u => u != userId),
             likeCount := p.likeCount - 1, updatedAt := now }
  else
    { p with likes := if p.likes.contains userId then p.likes
                      else p.likes ++ [userId],
             likeCount := p.likeCount + 1, updatedAt := now }

/-- `toggleLike`: flip the caller in the like set with the counter
co-maintained; a like (not an unlike) of somebody else's project also
notifies the author. A missing project (404) leaves the store unchanged. -/
def toggleLike (db : DB) (userId : String) (id : String) (now : Nat) : DB :=
  match findProject db id with
  | none => db
  | some project =>
    let hasLiked := project.likes.contains userId
    let db1 :=
      if !hasLiked && (project.authorId != "" && project.authorId != userId) then
        NotificationHelper.createNotification db now
          { recipientId := project.authorId, senderId := userId,
            type := "like", projectId := some project._id,
            projectTitle := project.title, message := "liked your project" }
      else db
    { db1 with projects := (updateFirst (fun p => p._id == project._id)
        (toggleLikeUpdate userId now hasLiked) db1.projects) }

/-! ### Comment thread operations
(src/controllers/projectController.js lines 797-1158) -/

/-- `user?.name || user?.displayName || 'Anonymous'`. -/
def commentUserName (db : DB) (userId : String) : String :=
  match findUser db userId with
  | some u => jsOr (jsOr u.name u.displayName) "Anonymous"
  | none => "Anonymous"

def commentUserPhoto (db : DB) (userId : String) : String :=
  match findUser db userId with
  | some u => u.photoURL
  | none => ""

/-- `addComment`: push a fresh comment, `$inc commentCount 1`, then notify
the project author (when distinct from the commenter). -/
def addComment (db : DB) (userId id content newCommentId : String)
    (now : Nat) : DB :=
  match findProject db id with
  | none => db
  | some project =>
    let comment : Comment :=
      { _id := newCommentId, userId := userId,
        userName := commentUserName db userId,
        userPhotoURL := commentUserPhoto db userId,
        content := content, createdAt := now, updatedAt := now, replies := [] }
    let db1 := { db with projects := (updateFirst (fun p => p._id == project._id)
        (fun p => { p with comments := p.comments ++ [comment],
                           commentCount := p.commentCount + 1,
                           updatedAt := now }) db.projects) }
    if project.authorId != "" && project.authorId != userId then
      NotificationHelper.createNotification db1 now
        { recipientId := project.authorId, senderId := userId,
          type := "comment", projectId := some project._id,
          projectTitle := project.title, commentId := some comment._id,
          message := "commented on your project" }
    else db1

/-- `editComment`: the first comment with the given id is rewritten in place;
only its author may edit it. -/
def editComment (db : DB) (userId id commentId content : String)
    (now : Nat) : DB :=
  match findProject db id with
  | none => db
  | some project =>
    match project.comments.find? (fun c => c._id == commentId) with
    | none => db
    | some comment =>
      if comment.userId != userId then db
      else
        { db with projects := (updateFirst (fun p => p._id == project._id)
            (fun p => { p with
              comments := (updateFirst (fun c => c._id == commentId)
                (fun c => { c with content := content, updatedAt := now })
                p.comments),
              updatedAt := now }) db.projects) }

/-- `deleteComment`: author or admin; `$pull` the comment and decrement
`commentCount` by `1 + replyCount`. -/
def deleteComment (db : DB) (userId id commentId : String) (now : Nat) : DB :=
  let isAdmin := isAdminUser db userId
  match findProject db id with
  | none => db
  | some project =>
    match project.comments.find? (fun c => c._id == commentId) with
    | none => db
    | some comment =>
      if comment.userId != userId && !isAdmin then db
      else
        let replyCount : Int := comment.replies.length
        { db with projects := (updateFirst (fun p => p._id == project._id)
            (fun p => { p with
              comments := p.comments.filter (fun c => !(c._id == commentId)),
              commentCount := p.commentCount - (1 + replyCount),
              updatedAt := now }) db.projects) }

/-- `addReply`: push a fresh reply under the first comment with the given
id, `$inc commentCount 1`, then notify the comment author. -/
def addReply (db : DB) (userId id commentId content newReplyId : String)
    (now : Nat) : DB :=
  match findProject db id with
  | none => db
  | some project =>
    match project.comments.find? (fun c => c._id == commentId) with
    | none => db
    | some comment =>
      let reply : Reply :=
        { _id := newReplyId, userId := userId,
          userName := commentUserName db userId,
          userPhotoURL := commentUserPhoto db userId,
          content := content, createdAt := now, updatedAt := now }
      let db1 := { db with projects := (updateFirst (fun p => p._id == project._id)
          (fun p => { p with
            comments := (updateFirst (fun c => c._id == commentId)
              (fun c => { c with replies := c.replies ++ [reply] }) p.comments),
            commentCount := p.commentCount + 1,
            updatedAt := now }) db.projects) }
      if comment.userId != "" && comment.userId != userId then
        NotificationHelper.createNotification db1 now
          { recipientId := comment.userId, senderId := userId,
            type := "reply", projectId := some project._id,
            projectTitle := project.title, commentId := some comment._id,
            message := "replied to your comment" }
      else db1

/-- `editReply`: only the reply author may rewrite it. -/
def editReply (db : DB) (userId id commentId replyId content : String)
    (now : Nat) : DB :=
  match findProject db id with
  | none => db
  | some project =>
    match project.comments.find? (fun c => c._id == commentId) with
    | none => db
    | some comment =>
      match comment.replies.find? (fun r => r._id == replyId) with
      | none => db
      | some reply =>
        if reply.userId != userId then db
        else
          { db with projects := (updateFirst (fun p => p._id == project._id)
              (fun p => { p with
                comments := (updateFirst (fun c => c._id == commentId)
                  (fun c => { c with
                    replies := (updateFirst (fun r => r._id == replyId)
                      (fun r => { r with content := content, updatedAt := now })
                      c.replies) }) p.comments),
                updatedAt := now }) db.projects) }

/-- `deleteReply`: author or admin; the reply is filtered out and
`commentCount` decremented by one. -/
def deleteReply (db : DB) (userId id commentId replyId : String)
    (now : Nat) : DB :=
  let isAdmin := isAdminUser db userId
  match findProject db id with
  | none => db
  | some project =>
    match project.comments.find? (fun c => c._id == commentId) with
    | none => db
    | some comment =>
      match comment.replies.find? (fun r => r._id == replyId) with
      | none => db
      | some reply =>
        if reply.userId != userId && !isAdmin then db
        else
          { db with projects := (updateFirst (fun p => p._id == project._id)
              (fun p => { p with
                comments := (updateFirst (fun c => c._id == commentId)
                  (fun c => { c with
                    replies := c.replies.filter (fun r => !(r._id == replyId)) })
                  p.comments),
                commentCount := p.commentCount - 1,
                updatedAt := now }) db.projects) }

/-- The documented comment-count invariant: `commentCount` equals the total
number of comments plus nested replies. -/
def commentWeight (c : Comment) : Int := 1 + (c.replies.length : Int)

def commentSum (p : Project) : Int := (p.comments.map commentWeight).sum

def commentInv (p : Project) : Prop := p.commentCount = commentSum p

/-- Comment and reply ids within a project are pairwise distinct (guaranteed
by `ObjectId` generation). -/
def threadWellFormed (p : Project) : Prop :=
  (p.comments.map (fun c => c._id)).Nodup ∧
  ∀ c ∈ p.comments, (c.replies.map (fun r => r._id)).Nodup

end ProjectController


namespace SupervisorController

/-! ### `sendRequest` (src/controllers/supervisorController.js lines 98-193)

Inputs are the `supervisorRequestSchema`-validated body fields
(`supervisorId`, optional `projectId`, `message`); `newId` is the ObjectId
generated for an inserted request. -/

inductive SendErr where
  | supervisorNotFound      -- 404
  | notASupervisor          -- 400
  | invalidProjectId        -- 400
  | projectNotFound         -- 404
  | projectNotOwned         -- 403
  | projectAlreadyAssigned  -- 400, Conflict: already-assigned project
  | duplicatePendingRequest -- 400, Conflict: duplicate pending triple
deriving Repr, DecidableEq

/-- The `Conflict` class of the error taxonomy (spec section 7): duplicate
pending request or already-assigned project. -/
def SendErr.isConflict : SendErr → Bool
  | .projectAlreadyAssigned => true
  | .duplicatePendingRequest => true
  | _ => false

/-- Duplicate-pending lookup and insert (lines 150-174), shared by the two
entry branches of `sendRequest`. The stored `projectId` is
`projectId || null`. -/
def sendRequestFinish (db : DB) (studentUid supervisorId : String)
    (projectId : Option String) (message newId : String) (now : Nat) :
    DB × Except SendErr SupervisorRequest :=
  match db.requests.find? (fun r =>
      r.studentId == studentUid && r.supervisorId == supervisorId &&
      r.projectId == jsOptString projectId && r.status == "pending") with
  | some _ => (db, .error .duplicatePendingRequest)
  | none =>
    let request : SupervisorRequest :=
      { _id := newId, studentId := studentUid, supervisorId := supervisorId,
        projectId := jsOptString projectId, message := message,
        status := "pending", createdAt := now }
    ({ db with requests := db.requests ++ [request] }, .ok request)

/-- `sendRequest`: verify the supervisor, then (for an attached project) the
project id, existence, ownership and unassignedness, then the
duplicate-pending check, then insert. -/
def sendRequest (db : DB) (studentUid supervisorId : String)
    (projectId : Option String) (message newId : String) (now : Nat) :
    DB × Except SendErr SupervisorRequest :=
  match findUser db supervisorId with
  | none => (db, .error .supervisorNotFound)
  | some supervisor =>
    if supervisor.role != "supervisor" then (db, .error .notASupervisor)
    else
      match jsOptString projectId with
      | some pid =>
        if !isValidObjectId pid then (db, .error .invalidProjectId)
        else
          match db.projects.find? (fun p => p._id == pid) with
          | none => (db, .error .projectNotFound)
          | some project =>
            if project.authorId != studentUid then (db, .error .projectNotOwned)
            else if project.supervisorId != "" then
              (db, .error .projectAlreadyAssigned)
            else sendRequestFinish db studentUid supervisorId projectId
              message newId now
      | none => sendRequestFinish db studentUid supervisorId projectId
          message newId now

/-! ### `respondToRequest` (src/controllers/supervisorController.js
lines 322-409)

`action` is the `supervisorResponseSchema`-validated action string; the
controller itself only distinguishes `approve` from everything else. -/

inductive RespondErr where
  | invalidRequestId -- 400
  | requestNotFound  -- 404
  | notOwner         -- 403, request is for another supervisor
  | invalidState     -- 400, request already responded to
deriving Repr, DecidableEq

/-- The `$set` applied to the request document (lines 361-370). -/
def respondUpdate (newStatus : String) (response : Option String)
    (now : Nat) (r : SupervisorRequest) : SupervisorRequest :=
  { r with status := newStatus, supervisorResponse := response.getD "",
           respondedAt := some now }

/-- `respondToRequest` as wired in src/routes (the `supervisorController.js`
module): guards, request-status write, and on `approve` with an attached
project the `supervisorId`-only project update plus the `$addToSet` into the
supervisor's `supervisedProjects`. -/
def respondToRequest (db : DB) (supervisorUid id action : String)
    (response : Option String) (now : Nat) :
    DB × Except RespondErr String :=
  if !isValidObjectId id then (db, .error .invalidRequestId)
  else
    match findRequest db id with
    | none => (db, .error .requestNotFound)
    | some request =>
      if request.supervisorId != supervisorUid then (db, .error .notOwner)
      else if request.status != "pending" then (db, .error .invalidState)
      else
        let newStatus := if action == "approve" then "approved" else "rejected"
        let db1 := { db with requests := (updateFirst (fun r => r._id == id)
            (respondUpdate newStatus response now) db.requests) }
        match (if action == "approve" then jsOptString request.projectId
               else none) with
        | some pid =>
          let db2 := { db1 with projects := (updateFirst (fun p => p._id == pid)
              (fun p => { p with supervisorId := supervisorUid,
                                 updatedAt := now }) db1.projects) }
          let db3 := { db2 with users := (updateFirst (fun u => u.uid == supervisorUid)
              (fun u => { u with supervisedProjects :=
                  if u.supervisedProjects.contains pid then u.supervisedProjects
                  else u.supervisedProjects ++ [pid] }) db2.users) }
          (db3, .ok newStatus)
        | none => (db1, .ok newStatus)

end SupervisorController

namespace SupervisorControllerB

/-- `respondToRequest` of the notification-enabled supervisor-request
controller packed with projectController.js (lines 1566-1679 of that file):
identical guards, but the approve-with-project branch additionally
denormalizes the responding supervisor's `name`/`department` onto the
project, and the student is notified afterwards. -/
def respondToRequest (db : DB) (supervisorUid id action : String)
    (response : Option String) (now : Nat) :
    DB × Except SupervisorController.RespondErr String :=
  if !isValidObjectId id then (db, .error .invalidRequestId)
  else
    match findRequest db id with
    | none => (db, .error .requestNotFound)
    | some request =>
      if request.supervisorId != supervisorUid then (db, .error .notOwner)
      else if request.status != "pending" then (db, .error .invalidState)
      else
        let newStatus := if action == "approve" then "approved" else "rejected"
        let db1 := { db with requests := (updateFirst (fun r => r._id == id)
            (SupervisorController.respondUpdate newStatus response now)
            db.requests) }
        let db3 :=
          match (if action == "approve" then jsOptString request.projectId
                 else none) with
          | some pid =>
            let supervisor := findUser db1 supervisorUid
            let db2 := { db1 with projects := (updateFirst (fun p => p._id == pid)
                (fun p => { p with
                  supervisorId := supervisorUid,
                  supervisor := (match supervisor with
                    | some u => jsOr u.name ""
                    | none => ""),
                  supervisorDepartment := (match supervisor with
                    | some u => jsOr u.department ""
                    | none => ""),
                  updatedAt := now }) db1.projects) }
            { db2 with users := (updateFirst (fun u => u.uid == supervisorUid)
                (fun u => { u with supervisedProjects :=
                    if u.supervisedProjects.contains pid then u.supervisedProjects
                    else u.supervisedProjects ++ [pid] }) db2.users) }
          | none => db1
        -- notification to the student (lines 1643-1664), failures swallowed
        let supervisor := findUser db3 supervisorUid
        let projectTitle : Option String :=
          match jsOptString request.projectId with
          | some pid =>
            (match db3.projects.find? (fun p => p._id == pid) with
             | some p => some p.title
             | none => none)
          | none => none
        let db4 := NotificationHelper.createSupervisorResponseNotification db3
          now request.studentId supervisorUid
          (match supervisor with
           | some u => jsOr (jsOr u.name u.displayName) "Supervisor"
           | none => "Supervisor")
          newStatus projectTitle request.projectId
        (db4, .ok newStatus)

end SupervisorControllerB

namespace UserController

/-- The role the spec derives from the email domain: faculty addresses
(`@iiuc.ac.bd` but not `@ugrad.iiuc.ac.bd`) are supervisors, everything else
is a student. -/
def derivedRole (email : String) : String :=
  if jsEndsWith email "@iiuc.ac.bd" && !jsEndsWith email "@ugrad.iiuc.ac.bd"
  then "supervisor" else "student"

/-- The repair trigger of `getUserProfile`
(src/controllers/userController.js line 27): a missing role, or a `student`
role on a faculty email. -/
def roleNeedsFix (u : User) : Bool :=
  u.role == "" ||
  (u.role == "student" &&
   (jsEndsWith u.email "@iiuc.ac.bd" && !jsEndsWith u.email "@ugrad.iiuc.ac.bd"))

/-- `getUserProfile` (lines 10-46): look the caller up, apply the
role auto-fix write when triggered, and return the (locally updated)
profile. -/
def getUserProfile (db : DB) (uid : String) (now : Nat) :
    DB × Except Unit User :=
  match findUser db uid with
  | none => (db, .error ())   -- 404 USER_NOT_FOUND
  | some user =>
    let isFacultyEmail :=
      jsEndsWith user.email "@iiuc.ac.bd" &&
      !jsEndsWith user.email "@ugrad.iiuc.ac.bd"
    if user.role == "" || (user.role == "student" && isFacultyEmail) then
      let updatedRole := if isFacultyEmail then "supervisor" else "student"
      ({ db with users := (updateFirst (fun u => u.uid == uid)
           (fun u => { u with role := updatedRole, updatedAt := now })
           db.users) },
       .ok { user with role := updatedRole })
    else (db, .ok user)

end UserController

namespace ProjectValidator

/-- The custom `abstract` rule of `createProjectSchema`
(src/validators/projectValidator.js lines 40-57). The validator module
carries its own copy of `stripHtml` (lines 7-23) that is
statement-for-statement identical to `src/utils/htmlStrip.js`, so the shared
embedding is reused: the stripped plain text must be at least 50 characters
and the raw value at most 5000. -/
def abstractCheckPasses (value : String) : Bool :=
  !((HtmlStrip.stripHtml value).length < 50) && !(value.length > 5000)

end ProjectValidator


/-! ### Concrete stores used to instantiate the claim theorems -/

def visApproved : Project :=
  { _id := "aaaaaaaaaaaaaaaaaaaaaaaa", authorId := "olga", status := "approved" }

def visPendingBob : Project :=
  { _id := "bbbbbbbbbbbbbbbbbbbbbbbb", authorId := "bob", status := "pending" }

def visPendingOlga : Project :=
  { _id := "cccccccccccccccccccccccc", authorId := "olga", status := "pending" }

def visRejectedBob : Project :=
  { _id := "dddddddddddddddddddddddd", authorId := "bob", status := "rejected" }

def visDB : DB :=
  { users := [{ uid := "bob" }, { uid := "olga" }],
    projects := [visApproved, visPendingBob, visPendingOlga, visRejectedBob] }

def supProfile : User :=
  { uid := "sup1", name := "Dr. Rahman", department := "CSE",
    role := "supervisor" }

def unassignedProject : Project :=
  { _id := "eeeeeeeeeeeeeeeeeeeeeeee", authorId := "stu1", status := "pending",
    supervisor := "Old Supervisor", supervisorDepartment := "EEE" }

def assignedProject : Project :=
  { _id := "ffffffffffffffffffffffff", authorId := "stu1", status := "pending",
    supervisorId := "sup9" }

def pendingReq : SupervisorRequest :=
  { _id := "abc000000000000000000000", studentId := "stu1",
    supervisorId := "sup1", projectId := some "eeeeeeeeeeeeeeeeeeeeeeee" }

def pendingReqNoProject : SupervisorRequest :=
  { _id := "abc111111111111111111111", studentId := "stu1",
    supervisorId := "sup1", projectId := none }

def respondedReq : SupervisorRequest :=
  { _id := "abc222222222222222222222", studentId := "stu1",
    supervisorId := "sup1", projectId := none, status := "approved" }

def workflowDB : DB :=
  { users := [supProfile, { uid := "stu1" }],
    projects := [unassignedProject, assignedProject],
    requests := [pendingReq, pendingReqNoProject, respondedReq] }

def threadReply : Reply := { _id := "bbb000000000000000000000", userId := "bob" }

def threadComment : Comment :=
  { _id := "ccc000000000000000000000", userId := "bob",
    replies := [threadReply] }

def threadProject : Project :=
  { _id := "ddd000000000000000000000", authorId := "olga",
    status := "approved", comments := [threadComment], commentCount := 2,
    likes := ["olga"], likeCount := 1 }

def threadDB : DB :=
  { users := [{ uid := "bob" }, { uid := "olga" }],
    projects := [threadProject] }

def staleRoleUser : User :=
  { uid := "u1", email := "x@ugrad.iiuc.ac.bd", role := "supervisor" }

def missingRoleUser : User :=
  { uid := "u2", email := "prof@iiuc.ac.bd", role := "" }

def roleDB : DB := { users := [staleRoleUser, missingRoleUser] }

/-! ## Helper lemmas and claim theorems -/

theorem updateFirst_nil (p : α → Bool) (f : α → α) : updateFirst p f [] = [] := rfl

theorem updateFirst_cons (p : α → Bool) (f : α → α) (x : α) (xs : List α) :
    updateFirst p f (x :: xs) = if p x then f x :: xs else x :: updateFirst p f xs := rfl

/-- Membership after an `updateOne`: each element of the result is either an
untouched element of the input list or the image of a matching element. -/
theorem mem_updateFirst {p : α → Bool} {f : α → α} {l : List α} {y : α}
    (hy : y ∈ updateFirst p f l) : y ∈ l ∨ ∃ x ∈ l, p x = true ∧ y = f x := by
  induction l with
  | nil => simp [updateFirst] at hy
  | cons x xs ih =>
    rw [updateFirst_cons] at hy
    by_cases hx : p x = true
    · simp [hx] at hy
      rcases hy with hy | hy
      · exact Or.inr ⟨x, by simp, hx, hy⟩
      · exact Or.inl (List.mem_cons_of_mem _ hy)
    · simp [hx] at hy
      rcases hy with hy | hy
      · exact Or.inl (by simp [hy])
      · rcases ih hy with h | ⟨z, hz, hpz, hyz⟩
        · exact Or.inl (List.mem_cons_of_mem _ h)
        · exact Or.inr ⟨z, List.mem_cons_of_mem _ hz, hpz, hyz⟩

/-- `findOne` after `updateOne` with the same filter: when `f` preserves the
filter, the looked-up document is the updated one. -/
theorem find?_updateFirst {p : α → Bool} {f : α → α} {l : List α}
    (hpres : ∀ x, p x = true → p (f x) = true) :
    (updateFirst p f l).find? p = (l.find? p).map f := by
  induction l with
  | nil => simp [updateFirst]
  | cons x xs ih =>
    rw [updateFirst_cons]
    by_cases hx : p x = true
    · simp [List.find?_cons, hx, hpres x hx]
    · simp [List.find?_cons, hx, ih]


example : HtmlStrip.stripHtml "<p>Hello&nbsp;&amp;  world</p>" = "Hello & world" := by
  decide

example : HtmlStrip.stripHtml "  a  <b>b</b> " = "a b" := by decide

example : isValidObjectId "0123456789abcdef01234567" = true := by decide

example : ciContains "React Native" "react" = true := by decide

namespace ProjectController

theorem mem_insertByCreatedAtDesc {x a : Project} {l : List Project} :
    a ∈ insertByCreatedAtDesc x l ↔ a = x ∨ a ∈ l := by
  induction l with
  | nil => simp [insertByCreatedAtDesc]
  | cons y ys ih =>
    simp only [insertByCreatedAtDesc]
    split
    · simp
    · simp [ih]
      tauto

theorem mem_sortByCreatedAtDesc {a : Project} {l : List Project} :
    a ∈ sortByCreatedAtDesc l ↔ a ∈ l := by
  induction l with
  | nil => simp [sortByCreatedAtDesc]
  | cons x xs ih =>
    simp [sortByCreatedAtDesc, mem_insertByCreatedAtDesc, ih]


end ProjectController

namespace ProjectController

/-- C1: visibility of `GET /projects`. An unauthenticated caller only ever
receives `approved` projects; an authenticated non-admin caller receives
exactly the projects that pass the other query filters and whose status is
`approved`, or `pending` with the caller as author — so no other caller's
pending or rejected project and not the caller's own rejected projects. -/
theorem getAllProjects_visibility (db : DB) (q : ProjectQuery)
    (currentYear : Int) :
    (∀ p ∈ getAllProjects db none q currentYear, p.status = "approved") ∧
    (∀ uid, uid ≠ "" → isAdminUser db uid = false →
      ∀ p, p ∈ getAllProjects db (some uid) q currentYear ↔
        (p ∈ db.projects ∧ matchesOtherFilters q currentYear p = true ∧
          (p.status = "approved" ∨ (p.status = "pending" ∧ p.authorId = uid)))) := by
  constructor
  · intro p hp
    simp only [getAllProjects, mem_sortByCreatedAtDesc, List.mem_filter,
      Bool.false_eq_true, if_false, Bool.and_eq_true, beq_iff_eq] at hp
    exact hp.2.1
  · intro uid huid hadm p
    have huid' : (uid == "") = false := by
      simp [huid]
    simp only [getAllProjects, huid', mem_sortByCreatedAtDesc, List.mem_filter,
      Bool.ite_eq_true_distrib, hadm, Bool.and_eq_true, Bool.or_eq_true,
      beq_iff_eq, Bool.false_eq_true, if_false]
    tauto

end ProjectController

/-- Witness for C1 at a concrete store: the authenticated non-admin caller
`bob` sees their own pending project but neither another author's pending
project nor their own rejected one. -/
theorem getAllProjects_visibility_witness :
    visPendingBob ∈ ProjectController.getAllProjects visDB (some "bob") {} 2025 ∧
    visPendingOlga ∉ ProjectController.getAllProjects visDB (some "bob") {} 2025 ∧
    visRejectedBob ∉ ProjectController.getAllProjects visDB (some "bob") {} 2025 := by
  have h := (ProjectController.getAllProjects_visibility visDB {} 2025).2 "bob"
    (by decide) (by decide)
  refine ⟨(h visPendingBob).mpr (by decide), fun hm => ?_, fun hm => ?_⟩
  · exact absurd ((h visPendingOlga).mp hm) (by decide)
  · exact absurd ((h visRejectedBob).mp hm) (by decide)

/-- C2 counterexample: an authenticated caller (`bob`) who is neither the
author of the pending project nor an admin reads it by id and receives the
project (HTTP 200) — the operation does not fail with AccessDenied. -/
theorem getProjectById_nonOwner_reads_pending :
    ProjectController.getProjectById visDB (some "bob")
        "cccccccccccccccccccccccc" = .ok visPendingOlga ∧
    visPendingOlga.status ≠ "approved" ∧
    visPendingOlga.authorId ≠ "bob" ∧
    ProjectController.isAdminUser visDB "bob" = false := by
  refine ⟨rfl, by decide, by decide, by decide⟩

namespace ProjectController

/-- C2 amended: only unauthenticated callers are restricted. An anonymous
read of an existing non-approved project fails with AccessDenied (403) and
does not return the project, while any authenticated caller — owner or not,
admin or not — receives any existing project regardless of status. -/
theorem getProjectById_anonymous_guard (db : DB) (id : String) (p : Project)
    (hp : findProject db id = some p) :
    (p.status ≠ "approved" →
      getProjectById db none id = .error .accessDenied) ∧
    (∀ u, getProjectById db (some u) id = .ok p) := by
  constructor
  · intro hs
    simp only [getProjectById, hp, Option.isNone_none, Bool.true_and]
    have : (p.status != "approved") = true := by
      simpa [bne_iff_ne] using hs
    simp [this]
  · intro u
    simp [getProjectById, hp]

end ProjectController

/-- Witness for the amended C2: the anonymous read of the pending project is
denied, while an authenticated stranger receives it. -/
theorem getProjectById_anonymous_guard_witness :
    ProjectController.getProjectById visDB none "cccccccccccccccccccccccc"
        = .error .accessDenied ∧
    ProjectController.getProjectById visDB (some "olga")
        "cccccccccccccccccccccccc" = .ok visPendingOlga := by
  have h := ProjectController.getProjectById_anonymous_guard visDB
    "cccccccccccccccccccccccc" visPendingOlga (by decide)
  exact ⟨h.1 (by decide), h.2 "olga"⟩

/-- C9 counterexample: a stored `supervisor` role on a student-domain email
conflicts with the email-derived role (`student`), yet the profile fetch
performs no correction — the store is unchanged and the stale role is
returned. -/
theorem getUserProfile_no_downgrade :
    UserController.derivedRole staleRoleUser.email = "student" ∧
    staleRoleUser.role = "supervisor" ∧
    (UserController.getUserProfile roleDB "u1" 1).1 = roleDB ∧
    (UserController.getUserProfile roleDB "u1" 1).2 = .ok staleRoleUser := by
  exact ⟨by decide, rfl, rfl, rfl⟩

namespace UserController

/-- No-repair case of `getUserProfile`: when the stored role does not
trigger the auto-fix, the fetch writes nothing. -/
theorem getUserProfile_noFix (db : DB) (uid : String) (n : Nat) (u : User)
    (hu : findUser db uid = some u) (hc : roleNeedsFix u = false) :
    (getUserProfile db uid n).1 = db := by
  have hc' : (u.role == "" || (u.role == "student" &&
      (jsEndsWith u.email "@iiuc.ac.bd" &&
       !jsEndsWith u.email "@ugrad.iiuc.ac.bd"))) = false := hc
  simp only [getUserProfile, hu, hc', Bool.false_eq_true, if_false]

/-- C9 amended: the profile-fetch role repair fixes a missing role, and a
`student` role on a faculty email, to the email-derived role; it performs no
write in every other case — in particular a stored `supervisor` role on a
student-domain email is not downgraded — and repeating the fetch performs no
further change (idempotent repair). -/
theorem getUserProfile_selfHeal (db : DB) (uid : String) (n1 n2 : Nat)
    (user : User) (hu : findUser db uid = some user) :
    (roleNeedsFix user = true →
      ∃ user1, findUser (getUserProfile db uid n1).1 uid = some user1 ∧
        user1.role = derivedRole user.email) ∧
    (roleNeedsFix user = false → (getUserProfile db uid n1).1 = db) ∧
    (getUserProfile (getUserProfile db uid n1).1 uid n2).1
      = (getUserProfile db uid n1).1 := by
  by_cases hfix : roleNeedsFix user = true
  · have hcond : (user.role == "" || (user.role == "student" &&
        (jsEndsWith user.email "@iiuc.ac.bd" &&
         !jsEndsWith user.email "@ugrad.iiuc.ac.bd"))) = true := hfix
    have h1 : (getUserProfile db uid n1).1 =
        { db with users := (updateFirst (fun u => u.uid == uid)
            (fun u => { u with
              role := if jsEndsWith user.email "@iiuc.ac.bd" &&
                  !jsEndsWith user.email "@ugrad.iiuc.ac.bd"
                then "supervisor" else "student",
              updatedAt := n1 }) db.users) } := by
      simp only [getUserProfile, hu, hcond, if_true]
    have hfind : findUser (getUserProfile db uid n1).1 uid =
        some { user with
          role := if jsEndsWith user.email "@iiuc.ac.bd" &&
              !jsEndsWith user.email "@ugrad.iiuc.ac.bd"
            then "supervisor" else "student",
          updatedAt := n1 } := by
      rw [h1]
      show (updateFirst (fun u => u.uid == uid) _ db.users).find?
          (fun u => u.uid == uid) = _
      rw [@find?_updateFirst _ (fun u => u.uid == uid)
        (fun u => { u with
          role := if jsEndsWith user.email "@iiuc.ac.bd" &&
              !jsEndsWith user.email "@ugrad.iiuc.ac.bd"
            then "supervisor" else "student",
          updatedAt := n1 }) db.users (fun x hx => hx),
        show db.users.find? (fun u => u.uid == uid) = some user from hu]
      rfl
    have hnofix2 : roleNeedsFix { user with
        role := if jsEndsWith user.email "@iiuc.ac.bd" &&
            !jsEndsWith user.email "@ugrad.iiuc.ac.bd"
          then "supervisor" else "student",
        updatedAt := n1 } = false := by
      cases hfac : jsEndsWith user.email "@iiuc.ac.bd" &&
          !jsEndsWith user.email "@ugrad.iiuc.ac.bd" <;>
        simp [roleNeedsFix, hfac]
    refine ⟨fun _ => ⟨_, hfind, rfl⟩, fun hno => absurd hfix (by simp [hno]),
      getUserProfile_noFix _ uid n2 _ hfind hnofix2⟩
  · have hfix' : roleNeedsFix user = false := by
      cases h : roleNeedsFix user
      · rfl
      · exact absurd h hfix
    have h1 : (getUserProfile db uid n1).1 = db :=
      getUserProfile_noFix db uid n1 user hu hfix'
    refine ⟨fun h => absurd h hfix, fun _ => h1, ?_⟩
    rw [h1]
    exact getUserProfile_noFix db uid n2 user hu hfix'

end UserController

/-- Witness for the amended C9: fetching the profile of the user with a
missing role repairs it, and an immediately repeated fetch changes nothing
further. -/
theorem getUserProfile_selfHeal_witness :
    (UserController.getUserProfile
        (UserController.getUserProfile roleDB "u2" 3).1 "u2" 4).1
      = (UserController.getUserProfile roleDB "u2" 3).1 :=
  (UserController.getUserProfile_selfHeal roleDB "u2" 3 4 missingRoleUser
    (by decide)).2.2

/-! ### Frame lemmas for the notification helper -/

theorem createNotification_projects (db : DB) (now : Nat)
    (prm : NotificationHelper.NotifParams) :
    (NotificationHelper.createNotification db now prm).projects = db.projects := by
  unfold NotificationHelper.createNotification
  split <;> rfl

theorem createNotification_users (db : DB) (now : Nat)
    (prm : NotificationHelper.NotifParams) :
    (NotificationHelper.createNotification db now prm).users = db.users := by
  unfold NotificationHelper.createNotification
  split <;> rfl

theorem createNotification_requests (db : DB) (now : Nat)
    (prm : NotificationHelper.NotifParams) :
    (NotificationHelper.createNotification db now prm).requests = db.requests := by
  unfold NotificationHelper.createNotification
  split <;> rfl

theorem responseNotification_projects (db : DB) (now : Nat)
    (a b c d : String) (t pid : Option String) :
    (NotificationHelper.createSupervisorResponseNotification db now a b c d
      t pid).projects = db.projects :=
  createNotification_projects ..

theorem responseNotification_users (db : DB) (now : Nat)
    (a b c d : String) (t pid : Option String) :
    (NotificationHelper.createSupervisorResponseNotification db now a b c d
      t pid).users = db.users :=
  createNotification_users ..

theorem responseNotification_requests (db : DB) (now : Nat)
    (a b c d : String) (t pid : Option String) :
    (NotificationHelper.createSupervisorResponseNotification db now a b c d
      t pid).requests = db.requests :=
  createNotification_requests ..

theorem jsOr_empty (a : String) : jsOr a "" = a := by
  unfold jsOr
  split
  · next h => exact (beq_iff_eq.mp h).symm
  · rfl

theorem mem_addToSet (a : String) (l : List String) :
    a ∈ (if l.contains a then l else l ++ [a]) := by
  split
  · next h => exact List.mem_of_elem_eq_true h
  · simp

namespace SupervisorController

/-- C5: guards of `respondToRequest` in both packed implementations — a
request addressed to another supervisor is rejected with NotOwner (403), and
a request that is no longer pending is rejected with InvalidState (400); in
both failure cases the store, and in particular the request record, is left
completely unchanged, so a responded request is terminal. -/
theorem respondToRequest_guards (db : DB) (supervisorUid id action : String)
    (response : Option String) (now : Nat) (request : SupervisorRequest)
    (hv : isValidObjectId id = true) (hr : findRequest db id = some request) :
    (request.supervisorId ≠ supervisorUid →
      respondToRequest db supervisorUid id action response now
        = (db, .error .notOwner) ∧
      SupervisorControllerB.respondToRequest db supervisorUid id action
        response now = (db, .error .notOwner)) ∧
    (request.supervisorId = supervisorUid → request.status ≠ "pending" →
      respondToRequest db supervisorUid id action response now
        = (db, .error .invalidState) ∧
      SupervisorControllerB.respondToRequest db supervisorUid id action
        response now = (db, .error .invalidState)) := by
  constructor
  · intro hown
    have hown' : (request.supervisorId != supervisorUid) = true := by
      simp [bne_iff_ne, hown]
    constructor <;>
      simp [respondToRequest, SupervisorControllerB.respondToRequest, hv, hr,
        hown']
  · intro hown hpend
    have hown' : (request.supervisorId != supervisorUid) = false := by
      simp [hown]
    have hpend' : (request.status != "pending") = true := by
      simp [bne_iff_ne, hpend]
    constructor <;>
      simp [respondToRequest, SupervisorControllerB.respondToRequest, hv, hr,
        hown', hpend']

end SupervisorController

/-- Witness for C5: responding to a request addressed to `sup1` as `sup2`
fails with NotOwner, and responding to the already-approved request as its
own supervisor fails with InvalidState, each leaving the store unchanged. -/
theorem respondToRequest_guards_witness :
    SupervisorController.respondToRequest workflowDB "sup2"
        "abc000000000000000000000" "approve" none 9
      = (workflowDB, .error .notOwner) ∧
    SupervisorController.respondToRequest workflowDB "sup1"
        "abc222222222222222222222" "approve" none 9
      = (workflowDB, .error .invalidState) := by
  have h1 := (SupervisorController.respondToRequest_guards workflowDB "sup2"
    "abc000000000000000000000" "approve" none 9 pendingReq (by decide)
    (by decide)).1 (by decide)
  have h2 := (SupervisorController.respondToRequest_guards workflowDB "sup1"
    "abc222222222222222222222" "approve" none 9 respondedReq (by decide)
    (by decide)).2 rfl (by decide)
  exact ⟨h1.1, h2.1⟩

namespace SupervisorController

/-- C10: on `reject`, and on `approve` of a request with no attached project,
both packed `respondToRequest` implementations leave every project document
and every user document (hence the supervisor's `supervisedProjects` set)
unchanged, and the only request modified is the target one, via the
status/supervisorResponse/respondedAt `$set`. -/
theorem respondToRequest_frame (db : DB) (supervisorUid id action : String)
    (response : Option String) (now : Nat) (request : SupervisorRequest)
    (hv : isValidObjectId id = true) (hr : findRequest db id = some request)
    (hown : request.supervisorId = supervisorUid)
    (hpend : request.status = "pending")
    (hcase : action ≠ "approve" ∨ jsOptString request.projectId = none) :
    ((respondToRequest db supervisorUid id action response now).1.projects
        = db.projects ∧
     (respondToRequest db supervisorUid id action response now).1.users
        = db.users ∧
     (respondToRequest db supervisorUid id action response now).1.requests
        = updateFirst (fun r => r._id == id)
            (respondUpdate (if action == "approve" then "approved"
              else "rejected") response now) db.requests) ∧
    ((SupervisorControllerB.respondToRequest db supervisorUid id action
        response now).1.projects = db.projects ∧
     (SupervisorControllerB.respondToRequest db supervisorUid id action
        response now).1.users = db.users ∧
     (SupervisorControllerB.respondToRequest db supervisorUid id action
        response now).1.requests
        = updateFirst (fun r => r._id == id)
            (respondUpdate (if action == "approve" then "approved"
              else "rejected") response now) db.requests) := by
  have hown' : (request.supervisorId != supervisorUid) = false := by
    simp [hown]
  have hpend' : (request.status != "pending") = false := by
    simp [hpend]
  have hmatch : (if action = "approve" then jsOptString request.projectId
      else none) = none := by
    rcases hcase with h | h
    · simp [h]
    · by_cases hact : action = "approve" <;> simp [h, hact]
  constructor
  · refine ⟨?_, ?_, ?_⟩ <;>
      simp [respondToRequest, hv, hr, hown', hpend', hmatch]
  · refine ⟨?_, ?_, ?_⟩ <;>
      simp [SupervisorControllerB.respondToRequest, hv, hr, hown', hpend',
        hmatch, responseNotification_projects, responseNotification_users,
        responseNotification_requests]

end SupervisorController

/-- Witness for C10: rejecting the pending request with an attached project
leaves all projects and users untouched and rewrites only the request. -/
theorem respondToRequest_frame_witness :
    (SupervisorController.respondToRequest workflowDB "sup1"
        "abc000000000000000000000" "reject" (some "no capacity") 9).1.projects
      = workflowDB.projects ∧
    (SupervisorController.respondToRequest workflowDB "sup1"
        "abc000000000000000000000" "reject" (some "no capacity") 9).1.users
      = workflowDB.users := by
  have h := (SupervisorController.respondToRequest_frame workflowDB "sup1"
    "abc000000000000000000000" "reject" (some "no capacity") 9 pendingReq
    (by decide) (by decide) (by decide) (by decide)
    (Or.inl (by decide))).1
  exact ⟨h.1, h.2.1⟩

/-- C3 counterexample: in the `supervisorController.js` implementation that
the supervisor routes bind, approving the pending request attached to the
project updates only `supervisorId`; the project's denormalized `supervisor`
name and `supervisorDepartment` stay `Old Supervisor` / `EEE` although the
responding supervisor's profile reads `Dr. Rahman` / `CSE`, so the claimed
equality of all three fields with the responder's profile fails. -/
theorem respondToRequest_stale_denormalization :
    ((SupervisorController.respondToRequest workflowDB "sup1"
        "abc000000000000000000000" "approve" none 9).1.projects.find?
        (fun q => q._id == "eeeeeeeeeeeeeeeeeeeeeeee")).map Project.supervisor
      = some "Old Supervisor" ∧
    ((SupervisorController.respondToRequest workflowDB "sup1"
        "abc000000000000000000000" "approve" none 9).1.projects.find?
        (fun q => q._id == "eeeeeeeeeeeeeeeeeeeeeeee")).map
        Project.supervisorDepartment = some "EEE" ∧
    findUser workflowDB "sup1" = some supProfile ∧
    supProfile.name = "Dr. Rahman" ∧
    supProfile.department = "CSE" := by
  exact ⟨by decide, by decide, by decide, rfl, rfl⟩

namespace SupervisorController

/-- C3 amended: approving a pending request with an attached existing
project sets the project's `supervisorId` to the responding supervisor and
adds the project id to the responder's `supervisedProjects` set in both
packed implementations; the notification-enabled implementation additionally
sets the project's denormalized `supervisor` name and `supervisorDepartment`
to the responder's current profile values, while the `supervisorController`
implementation bound by the routes leaves those two fields unchanged. -/
theorem respondToRequest_approve_assigns (db : DB) (supervisorUid id : String)
    (response : Option String) (now : Nat) (request : SupervisorRequest)
    (pid : String) (su : User) (p : Project)
    (hv : isValidObjectId id = true) (hr : findRequest db id = some request)
    (hown : request.supervisorId = supervisorUid)
    (hpend : request.status = "pending")
    (hpid : jsOptString request.projectId = some pid)
    (hsu : findUser db supervisorUid = some su)
    (hp : db.projects.find? (fun q => q._id == pid) = some p) :
    (∃ p1, (respondToRequest db supervisorUid id "approve" response
          now).1.projects.find? (fun q => q._id == pid) = some p1 ∧
        p1.supervisorId = supervisorUid ∧
        p1.supervisor = p.supervisor ∧
        p1.supervisorDepartment = p.supervisorDepartment) ∧
    (∃ u1, (respondToRequest db supervisorUid id "approve" response
          now).1.users.find? (fun u => u.uid == supervisorUid) = some u1 ∧
        pid ∈ u1.supervisedProjects) ∧
    (∃ p2, (SupervisorControllerB.respondToRequest db supervisorUid id
          "approve" response now).1.projects.find?
          (fun q => q._id == pid) = some p2 ∧
        p2.supervisorId = supervisorUid ∧
        p2.supervisor = su.name ∧
        p2.supervisorDepartment = su.department) ∧
    (∃ u2, (SupervisorControllerB.respondToRequest db supervisorUid id
          "approve" response now).1.users.find?
          (fun u => u.uid == supervisorUid) = some u2 ∧
        pid ∈ u2.supervisedProjects) := by
  have hown' : (request.supervisorId != supervisorUid) = false := by
    simp [hown]
  have hpend' : (request.status != "pending") = false := by
    simp [hpend]
  have hsu1 : findUser { db with requests := (updateFirst
      (fun r => r._id == id) (respondUpdate "approved" response now)
      db.requests) } supervisorUid = some su := hsu
  have hAproj : (respondToRequest db supervisorUid id "approve" response
      now).1.projects = updateFirst (fun q => q._id == pid)
        (fun q => { q with supervisorId := supervisorUid, updatedAt := now })
        db.projects := by
    simp [respondToRequest, hv, hr, hown', hpend', hpid]
  have hAusers : (respondToRequest db supervisorUid id "approve" response
      now).1.users = updateFirst (fun u => u.uid == supervisorUid)
        (fun u => { u with supervisedProjects :=
            if u.supervisedProjects.contains pid then u.supervisedProjects
            else u.supervisedProjects ++ [pid] }) db.users := by
    simp [respondToRequest, hv, hr, hown', hpend', hpid]
  have hBproj : (SupervisorControllerB.respondToRequest db supervisorUid id
      "approve" response now).1.projects = updateFirst (fun q => q._id == pid)
        (fun q => { q with
          supervisorId := supervisorUid,
          supervisor := jsOr su.name "",
          supervisorDepartment := jsOr su.department "",
          updatedAt := now }) db.projects := by
    simp [SupervisorControllerB.respondToRequest, hv, hr, hown', hpend',
      hpid, hsu1, responseNotification_projects]
  have hBusers : (SupervisorControllerB.respondToRequest db supervisorUid id
      "approve" response now).1.users = updateFirst
        (fun u => u.uid == supervisorUid)
        (fun u => { u with supervisedProjects :=
            if u.supervisedProjects.contains pid then u.supervisedProjects
            else u.supervisedProjects ++ [pid] }) db.users := by
    simp [SupervisorControllerB.respondToRequest, hv, hr, hown', hpend',
      hpid, hsu1, responseNotification_users]
  refine ⟨?_, ?_, ?_, ?_⟩
  · have hfind : (respondToRequest db supervisorUid id "approve" response
        now).1.projects.find? (fun q => q._id == pid)
        = some { p with supervisorId := supervisorUid, updatedAt := now } := by
      rw [hAproj, @find?_updateFirst _ (fun q => q._id == pid)
        (fun q => { q with supervisorId := supervisorUid, updatedAt := now })
        db.projects (fun x hx => hx), hp]
      rfl
    exact ⟨_, hfind, rfl, rfl, rfl⟩
  · have hfind : (respondToRequest db supervisorUid id "approve" response
        now).1.users.find? (fun u => u.uid == supervisorUid)
        = some { su with supervisedProjects :=
            if su.supervisedProjects.contains pid then su.supervisedProjects
            else su.supervisedProjects ++ [pid] } := by
      rw [hAusers, @find?_updateFirst _ (fun u => u.uid == supervisorUid)
        (fun u => { u with supervisedProjects :=
            if u.supervisedProjects.contains pid then u.supervisedProjects
            else u.supervisedProjects ++ [pid] }) db.users (fun x hx => hx),
        show db.users.find? (fun u => u.uid == supervisorUid) = some su from
          hsu]
      rfl
    exact ⟨_, hfind, mem_addToSet pid su.supervisedProjects⟩
  · have hfind : (SupervisorControllerB.respondToRequest db supervisorUid id
        "approve" response now).1.projects.find? (fun q => q._id == pid)
        = some { p with
            supervisorId := supervisorUid,
            supervisor := jsOr su.name "",
            supervisorDepartment := jsOr su.department "",
            updatedAt := now } := by
      rw [hBproj, @find?_updateFirst _ (fun q => q._id == pid)
        (fun q => { q with
          supervisorId := supervisorUid,
          supervisor := jsOr su.name "",
          supervisorDepartment := jsOr su.department "",
          updatedAt := now }) db.projects (fun x hx => hx), hp]
      rfl
    exact ⟨_, hfind, rfl, jsOr_empty su.name, jsOr_empty su.department⟩
  · have hfind : (SupervisorControllerB.respondToRequest db supervisorUid id
        "approve" response now).1.users.find? (fun u => u.uid == supervisorUid)
        = some { su with supervisedProjects :=
            if su.supervisedProjects.contains pid then su.supervisedProjects
            else su.supervisedProjects ++ [pid] } := by
      rw [hBusers, @find?_updateFirst _ (fun u => u.uid == supervisorUid)
        (fun u => { u with supervisedProjects :=
            if u.supervisedProjects.contains pid then u.supervisedProjects
            else u.supervisedProjects ++ [pid] }) db.users (fun x hx => hx),
        show db.users.find? (fun u => u.uid == supervisorUid) = some su from
          hsu]
      rfl
    exact ⟨_, hfind, mem_addToSet pid su.supervisedProjects⟩

end SupervisorController

/-- Witness for the amended C3: the approval at the concrete store, in both
implementations. -/
theorem respondToRequest_approve_assigns_witness :
    (∃ p1, (SupervisorController.respondToRequest workflowDB "sup1"
          "abc000000000000000000000" "approve" none 9).1.projects.find?
          (fun q => q._id == "eeeeeeeeeeeeeeeeeeeeeeee") = some p1 ∧
        p1.supervisorId = "sup1" ∧
        p1.supervisor = unassignedProject.supervisor ∧
        p1.supervisorDepartment = unassignedProject.supervisorDepartment) ∧
    (∃ u1, (SupervisorController.respondToRequest workflowDB "sup1"
          "abc000000000000000000000" "approve" none 9).1.users.find?
          (fun u => u.uid == "sup1") = some u1 ∧
        "eeeeeeeeeeeeeeeeeeeeeeee" ∈ u1.supervisedProjects) ∧
    (∃ p2, (SupervisorControllerB.respondToRequest workflowDB "sup1"
          "abc000000000000000000000" "approve" none 9).1.projects.find?
          (fun q => q._id == "eeeeeeeeeeeeeeeeeeeeeeee") = some p2 ∧
        p2.supervisorId = "sup1" ∧
        p2.supervisor = supProfile.name ∧
        p2.supervisorDepartment = supProfile.department) ∧
    (∃ u2, (SupervisorControllerB.respondToRequest workflowDB "sup1"
          "abc000000000000000000000" "approve" none 9).1.users.find?
          (fun u => u.uid == "sup1") = some u2 ∧
        "eeeeeeeeeeeeeeeeeeeeeeee" ∈ u2.supervisedProjects) :=
  SupervisorController.respondToRequest_approve_assigns workflowDB "sup1"
    "abc000000000000000000000" none 9 pendingReq "eeeeeeeeeeeeeeeeeeeeeeee"
    supProfile unassignedProject (by decide) (by decide) (by decide)
    (by decide) (by decide) (by decide) (by decide)

theorem exists_find?_eq_some {α} {p : α → Bool} {l : List α} {x : α}
    (hx : x ∈ l) (hpx : p x = true) : ∃ y, l.find? p = some y := by
  induction l with
  | nil => cases hx
  | cons a as ih =>
    by_cases h : p a = true
    · exact ⟨a, by simp [List.find?_cons, h]⟩
    · rcases List.mem_cons.mp hx with rfl | hx'
      · exact absurd hpx h
      · obtain ⟨y, hy⟩ := ih hx'
        exact ⟨y, by simp [List.find?_cons, h, hy]⟩

namespace SupervisorController

/-- C4: conflicts in `sendRequest`. Under the guards that necessarily hold
when the conflict situations of the claim are reached (the supervisor exists
with role `supervisor`, and an attached project id is valid, existing and
owned by the caller), a pending request with the same
(student, supervisor, project) triple makes the call fail with a Conflict
error, and an attached project that already has a supervisor assigned makes
it fail with the already-assigned Conflict; in both cases no request is
inserted — indeed the whole store is unchanged. -/
theorem sendRequest_conflicts (db : DB) (studentUid supervisorId : String)
    (projectId : Option String) (message newId : String) (now : Nat)
    (supUser : User)
    (hsu : findUser db supervisorId = some supUser)
    (hrole : supUser.role = "supervisor") :
    ((∀ pid, jsOptString projectId = some pid →
        isValidObjectId pid = true ∧
        ∃ proj, db.projects.find? (fun q => q._id == pid) = some proj ∧
          proj.authorId = studentUid) →
      (∃ r ∈ db.requests, r.studentId = studentUid ∧
        r.supervisorId = supervisorId ∧
        r.projectId = jsOptString projectId ∧ r.status = "pending") →
      ∃ e, sendRequest db studentUid supervisorId projectId message newId now
          = (db, .error e) ∧ e.isConflict = true) ∧
    (∀ pid proj, jsOptString projectId = some pid →
      isValidObjectId pid = true →
      db.projects.find? (fun q => q._id == pid) = some proj →
      proj.authorId = studentUid → proj.supervisorId ≠ "" →
      sendRequest db studentUid supervisorId projectId message newId now
        = (db, .error .projectAlreadyAssigned)) := by
  have hrole' : (supUser.role != "supervisor") = false := by simp [hrole]
  constructor
  · intro hproj hdup
    obtain ⟨r, hrmem, h1, h2, h3, h4⟩ := hdup
    obtain ⟨r0, hr0⟩ := @exists_find?_eq_some _
      (fun r => r.studentId == studentUid && r.supervisorId == supervisorId &&
        r.projectId == jsOptString projectId && r.status == "pending")
      db.requests r hrmem (by simp [h1, h2, h3, h4])
    have hfinish : sendRequestFinish db studentUid supervisorId projectId
        message newId now = (db, .error .duplicatePendingRequest) := by
      unfold sendRequestFinish
      rw [hr0]
    cases hpid : jsOptString projectId with
    | none =>
      refine ⟨.duplicatePendingRequest, ?_, rfl⟩
      rw [show sendRequest db studentUid supervisorId projectId message newId
          now = sendRequestFinish db studentUid supervisorId projectId message
          newId now from by simp [sendRequest, hsu, hrole', hpid], hfinish]
    | some pid =>
      obtain ⟨hvalid, proj, hfound, hauthor⟩ := hproj pid hpid
      have hauthor' : (proj.authorId != studentUid) = false := by simp [hauthor]
      by_cases hassigned : proj.supervisorId = ""
      · refine ⟨.duplicatePendingRequest, ?_, rfl⟩
        rw [show sendRequest db studentUid supervisorId projectId message newId
            now = sendRequestFinish db studentUid supervisorId projectId
            message newId now from by
          simp [sendRequest, hsu, hrole', hpid, hvalid, hfound, hauthor',
            hassigned], hfinish]
      · have hassigned' : (proj.supervisorId != "") = true := by
          simp [bne_iff_ne, hassigned]
        refine ⟨.projectAlreadyAssigned, ?_, rfl⟩
        simp [sendRequest, hsu, hrole', hpid, hvalid, hfound, hauthor',
          hassigned']
  · intro pid proj hpid hvalid hfound hauthor hassigned
    have hauthor' : (proj.authorId != studentUid) = false := by simp [hauthor]
    have hassigned' : (proj.supervisorId != "") = true := by
      simp [bne_iff_ne, hassigned]
    simp [sendRequest, hsu, hrole', hpid, hvalid, hfound, hauthor', hassigned']

end SupervisorController

/-- Witness for C4 at the concrete store: a second request for the same
(student, supervisor, no-project) triple fails with a Conflict, and a
request targeting the already-assigned project fails with the
already-assigned Conflict. -/
theorem sendRequest_conflicts_witness :
    (∃ e, SupervisorController.sendRequest workflowDB "stu1" "sup1" none
        "please supervise" "abc333333333333333333333" 9
        = (workflowDB, .error e) ∧ e.isConflict = true) ∧
    SupervisorController.sendRequest workflowDB "stu1" "sup1"
        (some "ffffffffffffffffffffffff") "please supervise"
        "abc333333333333333333333" 9
      = (workflowDB, .error .projectAlreadyAssigned) := by
  have h := SupervisorController.sendRequest_conflicts workflowDB "stu1"
    "sup1" none "please supervise" "abc333333333333333333333" 9 supProfile
    (by decide) rfl
  have h2 := SupervisorController.sendRequest_conflicts workflowDB "stu1"
    "sup1" (some "ffffffffffffffffffffffff") "please supervise"
    "abc333333333333333333333" 9 supProfile (by decide) rfl
  refine ⟨h.1 (fun pid hpid => by simp [jsOptString] at hpid) ?_,
    h2.2 "ffffffffffffffffffffffff" assignedProject (by decide) (by decide)
      (by decide) rfl (by decide)⟩
  exact ⟨pendingReqNoProject, by decide, rfl, rfl, rfl, rfl⟩

namespace ProjectController

/-- C6: any `createProject` request whose abstract strips to fewer than 100
plain-text characters fails with ValidationError (400) and inserts nothing —
every guard that can fire before the length check is itself a
ValidationError, and the store is returned unchanged. -/
theorem createProject_abstract_min_length (db : DB)
    (callerUid callerName : String) (body : CreateProjectBody)
    (newId : String) (currentYear : Int) (now : Nat) (a : String)
    (ha : body.abstract = some a)
    (hlen : (HtmlStrip.stripHtml a).length < 100) :
    createProject db callerUid callerName body newId currentYear now
      = (db, .error .validationError) := by
  cases ht : jsOptString body.title with
  | none => simp [createProject, ht]
  | some t0 =>
    by_cases hae : a = ""
    · subst hae
      simp only [createProject, ht, ha, jsOptString, beq_self_eq_true,
        if_true]
      repeat' split
      all_goals rfl
    · have hae' : (a == "") = false := by simp [hae]
      simp only [createProject, ht, ha, jsOptString, hae',
        Bool.false_eq_true, if_false]
      repeat' split
      all_goals first | rfl | exact absurd hlen (by assumption)

end ProjectController

/-- Witness for C6: an abstract whose stripped plain text is far below 100
characters is rejected with ValidationError and the store is unchanged. -/
theorem createProject_abstract_min_length_witness :
    ProjectController.createProject visDB "bob" "Bob"
        { title := some "A fine title", abstract := some "<p>too short</p>" }
        "abc444444444444444444444" 2025 9
      = (visDB, .error .validationError) :=
  ProjectController.createProject_abstract_min_length visDB "bob" "Bob"
    { title := some "A fine title", abstract := some "<p>too short</p>" }
    "abc444444444444444444444" 2025 9 "<p>too short</p>" rfl (by decide)

theorem mem_of_contains_eq_true {l : List String} {a : String}
    (h : l.contains a = true) : a ∈ l :=
  List.mem_of_elem_eq_true h

theorem not_mem_of_contains_eq_false {l : List String} {a : String}
    (h : l.contains a = false) : a ∉ l := by
  intro hm
  have h2 : l.contains a = true := List.elem_eq_true_of_mem hm
  rw [h2] at h
  cases h

theorem filter_bne_of_not_mem {l : List String} {u : String} (hu : u ∉ l) :
    l.filter (fun x => x != u) = l := by
  induction l with
  | nil => rfl
  | cons a as ih =>
    have hne : (a != u) = true := by
      simp only [bne_iff_ne, ne_eq, decide_eq_true_eq]
      intro h
      exact hu (h ▸ List.mem_cons_self a as)
    rw [List.filter_cons]
    simp [hne, ih (fun hm => hu (List.mem_cons_of_mem _ hm))]

theorem not_mem_filter_bne (l : List String) (u : String) :
    u ∉ l.filter (fun x => x != u) := by
  intro hm
  have := List.of_mem_filter hm
  simp [bne_iff_ne] at this

theorem length_filter_bne_of_nodup {l : List String} {u : String}
    (hnd : l.Nodup) (hu : u ∈ l) :
    (l.filter (fun x => x != u)).length + 1 = l.length := by
  induction l with
  | nil => cases hu
  | cons a as ih =>
    rcases List.mem_cons.mp hu with heq | hu'
    · subst heq
      have hna : u ∉ as := (List.nodup_cons.mp hnd).1
      have hself : (u != u) = false := by simp
      simp [List.filter_cons, hself, filter_bne_of_not_mem hna]
    · have hne : (a != u) = true := by
        simp only [bne_iff_ne, ne_eq, decide_eq_true_eq]
        intro h
        exact (List.nodup_cons.mp hnd).1 (h ▸ hu')
      have := ih (List.nodup_cons.mp hnd).2 hu'
      simp [List.filter_cons, hne]
      omega

namespace ProjectController

theorem findProject_eq (db : DB) (id : String) :
    findProject db id = db.projects.find? (fun q => q._id == id) := by
  unfold findProject
  split <;> rfl

/-- The project looked up after a `toggleLike` is the toggled document. -/
theorem toggleLike_find (db : DB) (u id : String) (n : Nat) (p : Project)
    (hp : findProject db id = some p) :
    findProject (toggleLike db u id n) id
      = some (toggleLikeUpdate u n (p.likes.contains u) p) := by
  have hp' : db.projects.find? (fun q => q._id == id) = some p := by
    rw [← findProject_eq]
    exact hp
  have hfp := @List.find?_some Project (fun q => q._id == id) p db.projects hp'
  have hid : p._id = id := beq_iff_eq.mp hfp
  rw [findProject_eq]
  unfold toggleLike
  rw [hp]
  cases hl : p.likes.contains u with
  | true =>
    simp only [hl, Bool.not_true, Bool.false_and, Bool.false_eq_true,
      if_false, hid]
    rw [@find?_updateFirst _ (fun q => q._id == id)
      (toggleLikeUpdate u n true) db.projects (fun x hx => hx), hp']
    rfl
  | false =>
    cases hauth : (p.authorId != "" && p.authorId != u) with
    | true =>
      simp only [hl, Bool.not_false, Bool.true_and, hauth, if_true, hid,
        createNotification_projects]
      rw [@find?_updateFirst _ (fun q => q._id == id)
        (toggleLikeUpdate u n false) db.projects (fun x hx => hx), hp']
      rfl
    | false =>
      simp only [hl, Bool.not_false, Bool.true_and, hauth,
        Bool.false_eq_true, if_false, hid]
      rw [@find?_updateFirst _ (fun q => q._id == id)
        (toggleLikeUpdate u n false) db.projects (fun x hx => hx), hp']
      rfl

/-- C8: toggling a like twice restores the caller's membership in the like
set and the `likeCount` to their original values, and a single `toggleLike`
keeps the documented `likeCount = |likes|` invariant (together with
distinctness of the like entries). -/
theorem toggleLike_toggle_involution (db : DB) (u id : String) (n1 n2 : Nat)
    (p : Project) (hp : findProject db id = some p) :
    (∃ p2, findProject (toggleLike (toggleLike db u id n1) u id n2) id
        = some p2 ∧
      (u ∈ p2.likes ↔ u ∈ p.likes) ∧ p2.likeCount = p.likeCount) ∧
    (p.likes.Nodup → p.likeCount = (p.likes.length : Int) →
      ∃ p1, findProject (toggleLike db u id n1) id = some p1 ∧
        p1.likes.Nodup ∧ p1.likeCount = (p1.likes.length : Int)) := by
  have h1 := toggleLike_find db u id n1 p hp
  have h2 := toggleLike_find (toggleLike db u id n1) u id n2
    (toggleLikeUpdate u n1 (p.likes.contains u) p) h1
  constructor
  · refine ⟨_, h2, ?_, ?_⟩
    · cases hl : p.likes.contains u with
      | true =>
        have hmem := mem_of_contains_eq_true hl
        have hnm : (p.likes.filter (fun x => x != u)).contains u = false := by
          cases hc : (p.likes.filter (fun x => x != u)).contains u
          · rfl
          · exact absurd (mem_of_contains_eq_true hc)
              (not_mem_filter_bne _ _)
        simp only [hl, toggleLikeUpdate, if_true, hnm, Bool.false_eq_true,
          if_false]
        simp [hmem]
      | false =>
        have hnmem := not_mem_of_contains_eq_false hl
        have hcc : (p.likes ++ [u]).contains u = true :=
          List.elem_eq_true_of_mem (by simp)
        simp only [hl, toggleLikeUpdate, Bool.false_eq_true, if_false,
          if_true, hcc]
        constructor
        · intro hm
          exact absurd (List.of_mem_filter hm) (by simp)
        · intro hm
          exact absurd hm hnmem
    · cases hl : p.likes.contains u with
      | true =>
        have hnm : (p.likes.filter (fun x => x != u)).contains u = false := by
          cases hc : (p.likes.filter (fun x => x != u)).contains u
          · rfl
          · exact absurd (mem_of_contains_eq_true hc)
              (not_mem_filter_bne _ _)
        simp only [hl, toggleLikeUpdate, if_true, hnm, Bool.false_eq_true,
          if_false]
        omega
      | false =>
        have hcc : (p.likes ++ [u]).contains u = true :=
          List.elem_eq_true_of_mem (by simp)
        simp only [hl, toggleLikeUpdate, Bool.false_eq_true, if_false,
          if_true, hcc]
        omega
  · intro hnd hcount
    refine ⟨_, h1, ?_, ?_⟩
    · cases hl : p.likes.contains u with
      | true =>
        simp only [hl, toggleLikeUpdate, if_true]
        exact hnd.filter _
      | false =>
        have hnmem := not_mem_of_contains_eq_false hl
        simp only [hl, toggleLikeUpdate, Bool.false_eq_true, if_false]
        simp [List.nodup_append, hnd, hnmem]
    · cases hl : p.likes.contains u with
      | true =>
        have hmem := mem_of_contains_eq_true hl
        have hlen := length_filter_bne_of_nodup hnd hmem
        simp only [hl, toggleLikeUpdate, if_true]
        omega
      | false =>
        simp only [hl, toggleLikeUpdate, Bool.false_eq_true, if_false]
        simp only [List.length_append, List.length_cons, List.length_nil]
        omega

end ProjectController

/-- Witness for C8 at the concrete store: toggling `bob` twice on the liked
project restores membership and counter, and one toggle preserves
`likeCount = |likes|`. -/
theorem toggleLike_toggle_involution_witness :
    (∃ p2, findProject (ProjectController.toggleLike
        (ProjectController.toggleLike threadDB "bob"
          "ddd000000000000000000000" 5) "bob" "ddd000000000000000000000" 6)
        "ddd000000000000000000000" = some p2 ∧
      ("bob" ∈ p2.likes ↔ "bob" ∈ threadProject.likes) ∧
      p2.likeCount = threadProject.likeCount) ∧
    (∃ p1, findProject (ProjectController.toggleLike threadDB "bob"
        "ddd000000000000000000000" 5) "ddd000000000000000000000" = some p1 ∧
      p1.likes.Nodup ∧ p1.likeCount = (p1.likes.length : Int)) := by
  have h := ProjectController.toggleLike_toggle_involution threadDB "bob"
    "ddd000000000000000000000" 5 6 threadProject (by decide)
  exact ⟨h.1, h.2 (by decide) (by decide)⟩

/-! ### Helper lemmas for the comment-count invariant -/

/-- Refined membership after `updateOne`: the updated element is the image of
the first match (the one `findOne` returns). -/
theorem mem_updateFirst' {q : α → Bool} {f : α → α} {l : List α} {y : α}
    (hy : y ∈ updateFirst q f l) :
    y ∈ l ∨ ∃ x, l.find? q = some x ∧ y = f x := by
  induction l with
  | nil => simp [updateFirst] at hy
  | cons a as ih =>
    rw [updateFirst_cons] at hy
    by_cases hq : q a = true
    · simp only [hq, if_true, List.mem_cons] at hy
      rcases hy with hy | hy
      · exact Or.inr ⟨a, by simp [List.find?_cons, hq], hy⟩
      · exact Or.inl (List.mem_cons_of_mem _ hy)
    · simp only [hq, if_false, List.mem_cons, Bool.false_eq_true] at hy
      rcases hy with hy | hy
      · exact Or.inl (by simp [hy])
      · rcases ih hy with h | ⟨x, hx, hyx⟩
        · exact Or.inl (List.mem_cons_of_mem _ h)
        · exact Or.inr ⟨x, by simp [List.find?_cons, hq, hx], hyx⟩

theorem length_updateFirst (q : α → Bool) (f : α → α) (l : List α) :
    (updateFirst q f l).length = l.length := by
  induction l with
  | nil => rfl
  | cons a as ih =>
    rw [updateFirst_cons]
    split <;> simp [ih]

/-- When every element fails the key test, the `$pull` filter is the
identity. -/
theorem filter_key_eq_self {α} (k : α → String) {l : List α} {key : String}
    (h : ∀ a ∈ l, (k a == key) = false) :
    l.filter (fun a => !(k a == key)) = l := by
  refine List.filter_eq_self.mpr (fun a ha => ?_)
  rw [h a ha]
  rfl

/-- With pairwise-distinct keys, `$pull` by the key of a found element
removes exactly that element from the count. -/
theorem length_filter_key_of_nodup {α} (k : α → String) {l : List α}
    {x : α} {key : String}
    (hn : (l.map k).Nodup) (hf : l.find? (fun a => k a == key) = some x) :
    (l.filter (fun a => !(k a == key))).length + 1 = l.length := by
  induction l with
  | nil => cases hf
  | cons a as ih =>
    by_cases hk : (k a == key) = true
    · have hka : k a = key := beq_iff_eq.mp hk
      have hnotin : ∀ b ∈ as, (k b == key) = false := by
        intro b hb
        cases hc : (k b == key)
        · rfl
        · have : k b = key := beq_iff_eq.mp hc
          have hmem : k a ∈ as.map k := by
            rw [hka, ← this]
            exact List.mem_map_of_mem k hb
          exact absurd hmem (List.nodup_cons.mp hn).1
      simp [List.filter_cons, hk, filter_key_eq_self k hnotin]
    · have hk' : (k a == key) = false := by
        cases hc : (k a == key)
        · rfl
        · exact absurd hc hk
      rw [List.find?_cons] at hf
      simp only [hk', Bool.false_eq_true] at hf
      have := ih (List.nodup_cons.mp hn).2 (by simpa using hf)
      simp [List.filter_cons, hk']
      omega

/-- Weighted version: the `$pull` of a found element removes exactly its
weight from the total. -/
theorem sum_filter_key_of_nodup {α} (k : α → String) (w : α → Int)
    {l : List α} {x : α} {key : String}
    (hn : (l.map k).Nodup) (hf : l.find? (fun a => k a == key) = some x) :
    ((l.filter (fun a => !(k a == key))).map w).sum + w x
      = (l.map w).sum := by
  induction l with
  | nil => cases hf
  | cons a as ih =>
    by_cases hk : (k a == key) = true
    · have hka : k a = key := beq_iff_eq.mp hk
      have hx : x = a := by
        rw [List.find?_cons] at hf
        simp only [hk, if_true] at hf
        exact (Option.some.inj hf).symm
      have hnotin : ∀ b ∈ as, (k b == key) = false := by
        intro b hb
        cases hc : (k b == key)
        · rfl
        · have : k b = key := beq_iff_eq.mp hc
          have hmem : k a ∈ as.map k := by
            rw [hka, ← this]
            exact List.mem_map_of_mem k hb
          exact absurd hmem (List.nodup_cons.mp hn).1
      subst hx
      simp [List.filter_cons, hk, filter_key_eq_self k hnotin]
      omega
    · have hk' : (k a == key) = false := by
        cases hc : (k a == key)
        · rfl
        · exact absurd hc hk
      rw [List.find?_cons] at hf
      simp only [hk', Bool.false_eq_true] at hf
      have := ih (List.nodup_cons.mp hn).2 (by simpa using hf)
      simp [List.filter_cons, hk']
      omega

namespace ProjectController

/-- The total comment weight after an `updateOne` on the comment array
changes by exactly the weight difference of the first matching comment. -/
theorem commentSum_updateFirst_find {q : Comment → Bool} {f : Comment → Comment}
    {cs : List Comment} {c : Comment} (hfind : cs.find? q = some c) :
    ((updateFirst q f cs).map commentWeight).sum
      = (cs.map commentWeight).sum + (commentWeight (f c) - commentWeight c) := by
  induction cs with
  | nil => cases hfind
  | cons a as ih =>
    rw [List.find?_cons] at hfind
    by_cases hq : q a = true
    · simp only [hq, if_true] at hfind
      have : c = a := (Option.some.inj hfind).symm
      subst this
      rw [updateFirst_cons]
      simp only [hq, if_true, List.map_cons, List.sum_cons]
      omega
    · simp only [hq, Bool.false_eq_true, if_false] at hfind
      rw [updateFirst_cons]
      simp only [hq, if_false, Bool.false_eq_true, List.map_cons,
        List.sum_cons]
      have := ih (by simpa using hfind)
      omega

end ProjectController

namespace ProjectController

/-- Invariant propagation through the single-project `updateOne` that every
comment-thread operation performs: untouched projects keep the invariant,
and the touched project is exactly the fetched one. -/
theorem inv_of_update (db : DB)
    (hdb : ∀ p ∈ db.projects, commentInv p ∧ threadWellFormed p)
    {id : String} {project : Project} {g : Project → Project}
    (hfp : findProject db id = some project)
    (hg : commentInv project → threadWellFormed project →
      commentInv (g project)) :
    ∀ p' ∈ updateFirst (fun q => q._id == project._id) g db.projects,
      commentInv p' := by
  have hp2 : db.projects.find? (fun q => q._id == id) = some project := by
    rw [← findProject_eq]
    exact hfp
  have hid : project._id = id :=
    beq_iff_eq.mp (@List.find?_some Project (fun q => q._id == id) project
      db.projects hp2)
  have hmem : project ∈ db.projects := List.mem_of_find?_eq_some hp2
  intro p' hp'
  rcases mem_updateFirst' hp' with h | ⟨x, hx, rfl⟩
  · exact (hdb p' h).1
  · rw [hid, hp2] at hx
    have hxp : x = project := (Option.some.inj hx).symm
    subst hxp
    exact hg (hdb x hmem).1 (hdb x hmem).2

/-- C7: `commentCount = Σ (1 + replies.length)` over the top-level comments
is preserved by all six comment-thread operations, and `deleteComment`
removes the comment with all its replies while decreasing `commentCount` by
exactly `1 + replyCount`. -/
theorem commentCount_invariant (db : DB)
    (hdb : ∀ p ∈ db.projects, commentInv p ∧ threadWellFormed p)
    (uid id cid rid content nid : String) (now : Nat) :
    (∀ p' ∈ (addComment db uid id content nid now).projects, commentInv p') ∧
    (∀ p' ∈ (editComment db uid id cid content now).projects,
      commentInv p') ∧
    (∀ p' ∈ (deleteComment db uid id cid now).projects, commentInv p') ∧
    (∀ p' ∈ (addReply db uid id cid content nid now).projects,
      commentInv p') ∧
    (∀ p' ∈ (editReply db uid id cid rid content now).projects,
      commentInv p') ∧
    (∀ p' ∈ (deleteReply db uid id cid rid now).projects, commentInv p') ∧
    (∀ p c, findProject db id = some p →
      p.comments.find? (fun c0 => c0._id == cid) = some c →
      (c.userId = uid ∨ isAdminUser db uid = true) →
      ∃ p', findProject (deleteComment db uid id cid now) id = some p' ∧
        p'.commentCount = p.commentCount - (1 + (c.replies.length : Int)) ∧
        p'.comments = p.comments.filter (fun c0 => !(c0._id == cid))) := by
  have hbase : ∀ p' ∈ db.projects, commentInv p' := fun p h => (hdb p h).1
  refine ⟨?_, ?_, ?_, ?_, ?_, ?_, ?_⟩
  · -- addComment
    cases hfp : findProject db id with
    | none =>
      simp only [addComment, hfp]
      exact hbase
    | some project =>
      cases hauth : (project.authorId != "" && project.authorId != uid) with
      | true =>
        simp only [addComment, hfp, hauth, if_true,
          createNotification_projects]
        refine inv_of_update db hdb hfp (fun hinv _ => ?_)
        simp only [commentInv, commentSum, List.map_append, List.sum_append,
          List.map_cons, List.sum_cons, List.map_nil, List.sum_nil,
          commentWeight] at *
        simp
        omega
      | false =>
        simp only [addComment, hfp, hauth, Bool.false_eq_true, if_false]
        refine inv_of_update db hdb hfp (fun hinv _ => ?_)
        simp only [commentInv, commentSum, List.map_append, List.sum_append,
          List.map_cons, List.sum_cons, List.map_nil, List.sum_nil,
          commentWeight] at *
        simp
        omega
  · -- editComment
    cases hfp : findProject db id with
    | none =>
      simp only [editComment, hfp]
      exact hbase
    | some project =>
      cases hfc : project.comments.find? (fun c0 => c0._id == cid) with
      | none =>
        simp only [editComment, hfp, hfc]
        exact hbase
      | some comment =>
        cases howner : (comment.userId != uid) with
        | true =>
          simp only [editComment, hfp, hfc, howner, if_true]
          exact hbase
        | false =>
          simp only [editComment, hfp, hfc, howner, Bool.false_eq_true,
            if_false]
          refine inv_of_update db hdb hfp (fun hinv _ => ?_)
          simp only [commentInv, commentSum] at *
          rw [commentSum_updateFirst_find hfc]
          simp only [commentWeight]
          omega
  · -- deleteComment
    cases hfp : findProject db id with
    | none =>
      simp only [deleteComment, hfp]
      exact hbase
    | some project =>
      cases hfc : project.comments.find? (fun c0 => c0._id == cid) with
      | none =>
        simp only [deleteComment, hfp, hfc]
        exact hbase
      | some comment =>
        cases hguard : (comment.userId != uid && !isAdminUser db uid) with
        | true =>
          simp only [deleteComment, hfp, hfc, hguard, if_true]
          exact hbase
        | false =>
          simp only [deleteComment, hfp, hfc, hguard, Bool.false_eq_true,
            if_false]
          refine inv_of_update db hdb hfp (fun hinv hwf => ?_)
          have hsum := @sum_filter_key_of_nodup Comment (fun c0 => c0._id)
            commentWeight project.comments comment cid hwf.1 hfc
          simp only [commentInv, commentSum] at *
          simp only [commentWeight] at hsum
          omega
  · -- addReply
    cases hfp : findProject db id with
    | none =>
      simp only [addReply, hfp]
      exact hbase
    | some project =>
      cases hfc : project.comments.find? (fun c0 => c0._id == cid) with
      | none =>
        simp only [addReply, hfp, hfc]
        exact hbase
      | some comment =>
        cases hauth : (comment.userId != "" && comment.userId != uid) with
        | true =>
          simp only [addReply, hfp, hfc, hauth, if_true,
            createNotification_projects]
          refine inv_of_update db hdb hfp (fun hinv _ => ?_)
          simp only [commentInv, commentSum] at *
          rw [commentSum_updateFirst_find hfc]
          simp only [commentWeight, List.length_append, List.length_cons,
            List.length_nil]
          push_cast
          omega
        | false =>
          simp only [addReply, hfp, hfc, hauth, Bool.false_eq_true, if_false]
          refine inv_of_update db hdb hfp (fun hinv _ => ?_)
          simp only [commentInv, commentSum] at *
          rw [commentSum_updateFirst_find hfc]
          simp only [commentWeight, List.length_append, List.length_cons,
            List.length_nil]
          push_cast
          omega
  · -- editReply
    cases hfp : findProject db id with
    | none =>
      simp only [editReply, hfp]
      exact hbase
    | some project =>
      cases hfc : project.comments.find? (fun c0 => c0._id == cid) with
      | none =>
        simp only [editReply, hfp, hfc]
        exact hbase
      | some comment =>
        cases hfr : comment.replies.find? (fun r => r._id == rid) with
        | none =>
          simp only [editReply, hfp, hfc, hfr]
          exact hbase
        | some reply =>
          cases howner : (reply.userId != uid) with
          | true =>
            simp only [editReply, hfp, hfc, hfr, howner, if_true]
            exact hbase
          | false =>
            simp only [editReply, hfp, hfc, hfr, howner, Bool.false_eq_true,
              if_false]
            refine inv_of_update db hdb hfp (fun hinv _ => ?_)
            simp only [commentInv, commentSum] at *
            rw [commentSum_updateFirst_find hfc]
            simp only [commentWeight, length_updateFirst]
            omega
  · -- deleteReply
    cases hfp : findProject db id with
    | none =>
      simp only [deleteReply, hfp]
      exact hbase
    | some project =>
      cases hfc : project.comments.find? (fun c0 => c0._id == cid) with
      | none =>
        simp only [deleteReply, hfp, hfc]
        exact hbase
      | some comment =>
        cases hfr : comment.replies.find? (fun r => r._id == rid) with
        | none =>
          simp only [deleteReply, hfp, hfc, hfr]
          exact hbase
        | some reply =>
          cases hguard : (reply.userId != uid && !isAdminUser db uid) with
          | true =>
            simp only [deleteReply, hfp, hfc, hfr, hguard, if_true]
            exact hbase
          | false =>
            simp only [deleteReply, hfp, hfc, hfr, hguard,
              Bool.false_eq_true, if_false]
            refine inv_of_update db hdb hfp (fun hinv hwf => ?_)
            have hmemc : comment ∈ project.comments :=
              List.mem_of_find?_eq_some hfc
            have hlen := @length_filter_key_of_nodup Reply (fun r => r._id)
              comment.replies reply rid (hwf.2 comment hmemc) hfr
            simp only [commentInv, commentSum] at *
            rw [commentSum_updateFirst_find hfc]
            simp only [commentWeight]
            omega
  · -- deleteComment delta
    intro p c hfp hfc hauthz
    have hguard : (c.userId != uid && !isAdminUser db uid) = false := by
      rcases hauthz with h | h
      · simp [h]
      · simp [h]
    have hp2 : db.projects.find? (fun q => q._id == id) = some p := by
      rw [← findProject_eq]
      exact hfp
    have hid : p._id = id :=
      beq_iff_eq.mp (@List.find?_some Project (fun q => q._id == id) p
        db.projects hp2)
    have hfind : findProject (deleteComment db uid id cid now) id
        = some { p with
            comments := p.comments.filter (fun c0 => !(c0._id == cid)),
            commentCount := p.commentCount - (1 + (c.replies.length : Int)),
            updatedAt := now } := by
      rw [findProject_eq]
      simp only [deleteComment, hfp, hfc, hguard, Bool.false_eq_true,
        if_false]
      rw [hid]
      rw [@find?_updateFirst _ (fun q => q._id == id)
        (fun q => { q with
          comments := q.comments.filter (fun c0 => !(c0._id == cid)),
          commentCount := q.commentCount - (1 + (c.replies.length : Int)),
          updatedAt := now }) db.projects (fun x hx => hx), hp2]
      simp [hid]
    exact ⟨_, hfind, rfl, rfl⟩

end ProjectController

/-- Witness for C7 at the concrete store: deleting the only comment (which
carries one reply) by its author yields the filtered thread and decrements
the counter by `1 + 1`. -/
theorem commentCount_invariant_witness :
    ∃ p', findProject (ProjectController.deleteComment threadDB "bob"
        "ddd000000000000000000000" "ccc000000000000000000000" 7)
        "ddd000000000000000000000" = some p' ∧
      p'.commentCount
        = threadProject.commentCount
            - (1 + (threadComment.replies.length : Int)) ∧
      p'.comments = threadProject.comments.filter
        (fun c0 => !(c0._id == "ccc000000000000000000000")) := by
  have hdb0 : ∀ p ∈ threadDB.projects,
      ProjectController.commentInv p ∧
      ProjectController.threadWellFormed p := by
    intro p hp
    have hp' : p = threadProject := by
      simpa [threadDB] using hp
    subst hp'
    refine ⟨?_, ?_, ?_⟩
    · show threadProject.commentCount
        = ProjectController.commentSum threadProject
      decide
    · show (threadProject.comments.map (fun c => c._id)).Nodup
      decide
    · intro c hc
      have hc' : c = threadComment := by
        simpa [threadProject] using hc
      subst hc'
      decide
  have h := ProjectController.commentCount_invariant threadDB hdb0
    "bob" "ddd000000000000000000000" "ccc000000000000000000000"
    "bbb000000000000000000000" "hello" "eee111111111111111111111" 7
  exact h.2.2.2.2.2.2 threadProject threadComment (by decide) (by decide)
    (Or.inl rfl)
